import Mathlib

/-!
# RateWise core — shallow embedding and verification

This file embeds the core of the RateWise HTTP client library
(`src/ratewise/retry.py`, `circuit_breaker.py`, `cache.py`, `logging.py`,
`client.py`) as executable Lean definitions, and proves or refutes the
spec claims about it.

Modelling conventions:
* Python floats are modelled as `ℚ` (no claim under consideration depends on
  floating-point rounding).
* `time.time()` is modelled by explicit `now : ℚ` arguments; the pipeline
  receives a `times : ℕ → ℚ` stream giving the wall clock at each attempt.
* `random.uniform (-r) r` (the jitter draw) is modelled as `r * u` for an
  externally supplied unit sample `u`, quantified over `-1 ≤ u ≤ 1`.
* Exceptions become explicit result values.  Python's `try/except` scoping is
  translated faithfully: an exception raised in the `try:` body of
  `RateWiseClient._make_request` is caught by its `except Exception` clause,
  while exceptions raised inside an `except` handler propagate.
* `hashlib.sha256(...).hexdigest()` is implemented bit-for-bit below over the
  UTF-8 bytes of the input.
-/

namespace RateWise

/-! ## Byte-level helpers: UTF-8 and SHA-256 (`hashlib.sha256(s.encode()).hexdigest()`) -/

/-- UTF-8 encoding of a single scalar value (Python `str.encode()` is UTF-8). -/
def utf8EncodeChar (c : Char) : List Nat :=
  let n := c.toNat
  if n < 128 then [n]
  else if n < 2048 then [192 + n / 64, 128 + n % 64]
  else if n < 65536 then [224 + n / 4096, 128 + (n / 64) % 64, 128 + n % 64]
  else [240 + n / 262144, 128 + (n / 4096) % 64, 128 + (n / 64) % 64, 128 + n % 64]

/-- UTF-8 encoding of a string as a byte list. -/
def utf8Encode (s : String) : List Nat :=
  (s.data.map utf8EncodeChar).flatten

/-- 32-bit right rotation on `Nat` (values kept below `2 ^ 32`). -/
def rotr32 (n x : Nat) : Nat :=
  ((x >>> n) ||| (x <<< (32 - n))) % 4294967296

/-- The 64 SHA-256 round constants. -/
def sha256K : List Nat :=
  [1116352408, 1899447441, 3049323471, 3921009573, 961987163,
   1508970993, 2453635748, 2870763221, 3624381080, 310598401,
   607225278, 1426881987, 1925078388, 2162078206, 2614888103,
   3248222580, 3835390401, 4022224774, 264347078, 604807628,
   770255983, 1249150122, 1555081692, 1996064986, 2554220882,
   2821834349, 2952996808, 3210313671, 3336571891, 3584528711,
   113926993, 338241895, 666307205, 773529912, 1294757372,
   1396182291, 1695183700, 1986661051, 2177026350, 2456956037,
   2730485921, 2820302411, 3259730800, 3345764771, 3516065817,
   3600352804, 4094571909, 275423344, 430227734, 506948616,
   659060556, 883997877, 958139571, 1322822218, 1537002063,
   1747873779, 1955562222, 2024104815, 2227730452, 2361852424,
   2428436474, 2756734187, 3204031479, 3329325298]

/-- The SHA-256 initial hash state. -/
def sha256Init : List Nat :=
  [1779033703, 3144134277, 1013904242, 2773480762,
   1359893119, 2600822924, 528734635, 1541459225]

/-- `k` bytes of `n`, big-endian. -/
def natToBytesBE (k n : Nat) : List Nat :=
  (List.range k).map fun i => (n >>> (8 * (k - 1 - i))) % 256

/-- SHA-256 message padding: `0x80`, zeros to 56 mod 64, 8-byte bit length. -/
def sha256Pad (msg : List Nat) : List Nat :=
  let l := msg.length
  let zeros := (119 - l % 64) % 64
  msg ++ [128] ++ List.replicate zeros 0 ++ natToBytesBE 8 (l * 8)

/-- Big-endian 32-bit words from a byte list. -/
def bytesToWords : List Nat → List Nat
  | b0 :: b1 :: b2 :: b3 :: rest =>
      (((b0 * 256 + b1) * 256 + b2) * 256 + b3) :: bytesToWords rest
  | _ => []

/-- Split into chunks of 16 words (`fuel` bounds the recursion). -/
def chunks16Go : Nat → List Nat → List (List Nat)
  | 0, _ => []
  | _, [] => []
  | fuel + 1, l => l.take 16 :: chunks16Go fuel (l.drop 16)

/-- Split a word list into 16-word blocks. -/
def chunks16 (l : List Nat) : List (List Nat) :=
  chunks16Go l.length l

/-- SHA-256 σ₀. -/
def sha256s0 (x : Nat) : Nat := (rotr32 7 x) ^^^ (rotr32 18 x) ^^^ (x >>> 3)

/-- SHA-256 σ₁. -/
def sha256s1 (x : Nat) : Nat := (rotr32 17 x) ^^^ (rotr32 19 x) ^^^ (x >>> 10)

/-- SHA-256 Σ₀. -/
def sha256S0 (x : Nat) : Nat := (rotr32 2 x) ^^^ (rotr32 13 x) ^^^ (rotr32 22 x)

/-- SHA-256 Σ₁. -/
def sha256S1 (x : Nat) : Nat := (rotr32 6 x) ^^^ (rotr32 11 x) ^^^ (rotr32 25 x)

/-- SHA-256 `Ch` (the complement is taken within 32 bits). -/
def sha256Ch (x y z : Nat) : Nat := (x &&& y) ^^^ ((x ^^^ 4294967295) &&& z)

/-- SHA-256 `Maj`. -/
def sha256Maj (x y z : Nat) : Nat := (x &&& y) ^^^ (x &&& z) ^^^ (y &&& z)

/-- Extend the message schedule by `n` further words. -/
def sha256ExtendGo : Nat → List Nat → List Nat
  | 0, w => w
  | n + 1, w =>
      let i := w.length
      let x := (sha256s1 (w.getD (i - 2) 0) + w.getD (i - 7) 0 +
                sha256s0 (w.getD (i - 15) 0) + w.getD (i - 16) 0) % 4294967296
      sha256ExtendGo n (w ++ [x])

/-- The 64-word message schedule of one block. -/
def sha256Schedule (block : List Nat) : List Nat :=
  sha256ExtendGo 48 block

/-- One SHA-256 round on the 8-word working state. -/
def sha256Round (st : List Nat) (kw : Nat × Nat) : List Nat :=
  match st with
  | [a, b, c, d, e, f, g, h] =>
      let t1 := (h + sha256S1 e + sha256Ch e f g + kw.1 + kw.2) % 4294967296
      let t2 := (sha256S0 a + sha256Maj a b c) % 4294967296
      [(t1 + t2) % 4294967296, a, b, c, (d + t1) % 4294967296, e, f, g]
  | other => other

/-- Compress one 16-word block into the hash state. -/
def sha256Compress (h : List Nat) (block : List Nat) : List Nat :=
  let w := sha256Schedule block
  let st := (sha256K.zip w).foldl sha256Round h
  (h.zip st).map fun p => (p.1 + p.2) % 4294967296

/-- SHA-256 of a byte list, as the 8-word state. -/
def sha256Words (msg : List Nat) : List Nat :=
  (chunks16 (bytesToWords (sha256Pad msg))).foldl sha256Compress sha256Init

/-- A lowercase hex digit. -/
def hexDigit (n : Nat) : Char :=
  if n < 10 then Char.ofNat (48 + n) else Char.ofNat (87 + n)

/-- 8 lowercase hex characters of a 32-bit word. -/
def wordToHex8 (n : Nat) : String :=
  ⟨(List.range 8).map fun i => hexDigit ((n >>> (4 * (7 - i))) % 16)⟩

/-- `hashlib.sha256(s.encode()).hexdigest()`. -/
def sha256Hex (s : String) : String :=
  ((sha256Words (utf8Encode s)).map wordToHex8).foldl (· ++ ·) ""

/-- Python `str.lower()` over code points (`String.toLower` in core uses
well-founded recursion; this list-based form evaluates by `decide`). -/
def strToLower (s : String) : String :=
  ⟨s.data.map Char.toLower⟩

/-- Python `str.upper()` over code points. -/
def strToUpper (s : String) : String :=
  ⟨s.data.map Char.toUpper⟩

/-! ## `retry.py` -/

/-- Python `x ** n` for a natural exponent, as iterated multiplication
(Mathlib's `Monoid.npow` on `ℚ` does not reduce in the kernel). -/
def qpow (q : ℚ) : ℕ → ℚ
  | 0 => 1
  | n + 1 => q * qpow q n

/-- `ExponentialBackoff` (retry.py:43-51): backoff configuration. -/
structure ExponentialBackoff where
  initial_delay : ℚ := 1
  max_delay : ℚ := 60
  multiplier : ℚ := 2
  jitter : Bool := true
  jitter_ratio : ℚ := 1/10
deriving DecidableEq

/-- `ExponentialBackoff.calculate_delay` (retry.py:53-72).  The jitter draw
`random.uniform(-jitter_range, jitter_range)` is modelled as
`jitter_range * u` for a unit sample `u` supplied by the caller
(`-1 ≤ u ≤ 1` corresponds to the support of the uniform draw). -/
def ExponentialBackoff.calculate_delay (b : ExponentialBackoff) (attempt : ℕ) (u : ℚ) : ℚ :=
  let delay := min (b.initial_delay * qpow b.multiplier (attempt - 1)) b.max_delay
  if b.jitter then
    let jitter_range := delay * b.jitter_ratio
    max 0 (delay + jitter_range * u)
  else delay

/-- `RetryConfig` (retry.py:75-94).  `backoff_strategy` is always
`EXPONENTIAL` in the modelled pipeline and is omitted. -/
structure RetryConfig where
  max_attempts : ℕ := 3
  retry_on_status : List ℕ := [429, 500, 502, 503, 504]
  initial_delay : ℚ := 1
  max_delay : ℚ := 60
  jitter : Bool := true
  jitter_ratio : ℚ := 1/10
  respect_retry_after : Bool := true
  max_retry_after : ℚ := 300
  retry_on_timeout : Bool := true
  retry_on_connection_error : Bool := true
  idempotent_methods : List String := ["GET", "HEAD", "OPTIONS", "PUT", "DELETE"]

/-- `should_retry_on_status` (retry.py:106-121), with a config supplied
(the pipeline always passes `self.retry_config`). -/
def should_retry_on_status (status_code : ℕ) (config : RetryConfig) : Bool :=
  status_code ∈ config.retry_on_status

/-- `is_idempotent_method` (retry.py:280-295), with a config supplied. -/
def is_idempotent_method (method : String) (config : RetryConfig) : Bool :=
  strToUpper method ∈ config.idempotent_methods

/-! ## `circuit_breaker.py`

State-mutating methods become pure functions `BreakerState → ... → BreakerState`.
`time.time()` becomes an explicit `now : ℚ`.  Exception classes used by the
failure filter (`expected_exceptions` / `excluded_exceptions` tuples, matched
with `isinstance`) are modelled as abstract error-kind codes `ℕ` with Boolean
membership predicates; the default `(Exception,)` is `fun _ => true`. -/

/-- `CircuitState` (circuit_breaker.py:15-19). -/
inductive CircuitState where
  | closed
  | opened
  | halfOpen
deriving DecidableEq

/-- Constructor arguments of `CircuitBreaker.__init__` (circuit_breaker.py:60-84). -/
structure CircuitBreakerConfig where
  failure_threshold : ℕ := 5
  success_threshold : ℕ := 2
  recovery_timeout : ℚ := 60
  expected_exceptions : ℕ → Bool := fun _ => true
  excluded_exceptions : ℕ → Bool := fun _ => false

/-- `CircuitBreakerMetrics` (circuit_breaker.py:33-48). -/
structure CircuitBreakerMetrics where
  total_calls : ℕ := 0
  successful_calls : ℕ := 0
  failed_calls : ℕ := 0
  rejected_calls : ℕ := 0
  state_transitions : ℕ := 0
deriving DecidableEq

/-- The mutable state of a `CircuitBreaker` instance. -/
structure BreakerState where
  state : CircuitState := .closed
  failure_count : ℕ := 0
  success_count : ℕ := 0
  last_failure_time : Option ℚ := none
  metrics : CircuitBreakerMetrics := {}
deriving DecidableEq

/-- The breaker state right after `__init__`. -/
def BreakerState.initial : BreakerState := {}

/-- `CircuitBreaker._transition_to` (circuit_breaker.py:133-160).  Listeners
only log and cannot affect the state; they are not modelled. -/
def transition_to (new_state : CircuitState) (s : BreakerState) : BreakerState :=
  if s.state = new_state then s
  else
    let s := { s with
      state := new_state
      metrics := { s.metrics with
                   state_transitions := s.metrics.state_transitions + 1 } }
    let s := if new_state = .closed then
               { s with failure_count := 0, success_count := 0 }
             else s
    if new_state = .halfOpen then { s with success_count := 0 } else s

/-- `CircuitBreaker._should_attempt_recovery` (circuit_breaker.py:127-131). -/
def should_attempt_recovery (cfg : CircuitBreakerConfig) (now : ℚ)
    (s : BreakerState) : Bool :=
  match s.last_failure_time with
  | none => true
  | some t => now - t ≥ cfg.recovery_timeout

/-- `CircuitBreaker.is_open` (circuit_breaker.py:109-117) — it may itself
transition `Open → HalfOpen`, so it returns the new state as well. -/
def is_open (cfg : CircuitBreakerConfig) (now : ℚ) (s : BreakerState) :
    Bool × BreakerState :=
  if s.state = .opened then
    if should_attempt_recovery cfg now s then
      (false, transition_to .halfOpen s)
    else (true, s)
  else (false, s)

/-- `CircuitBreaker.record_success` (circuit_breaker.py:162-173). -/
def record_success (cfg : CircuitBreakerConfig) (s : BreakerState) : BreakerState :=
  let s := { s with
    metrics := { s.metrics with
                 total_calls := s.metrics.total_calls + 1,
                 successful_calls := s.metrics.successful_calls + 1 } }
  match s.state with
  | .halfOpen =>
      let s := { s with success_count := s.success_count + 1 }
      if s.success_count ≥ cfg.success_threshold then transition_to .closed s else s
  | .closed => { s with failure_count := 0 }
  | .opened => s

/-- The unconditionally-counting tail of `CircuitBreaker.record_failure`
(circuit_breaker.py:184-193). -/
def record_failure_counted (cfg : CircuitBreakerConfig) (now : ℚ)
    (s : BreakerState) : BreakerState :=
  let s := { s with
    metrics := { s.metrics with
                 total_calls := s.metrics.total_calls + 1,
                 failed_calls := s.metrics.failed_calls + 1 }
    failure_count := s.failure_count + 1
    last_failure_time := some now }
  match s.state with
  | .halfOpen => transition_to .opened s
  | .closed =>
      if s.failure_count ≥ cfg.failure_threshold then transition_to .opened s else s
  | .opened => s

/-- `CircuitBreaker.record_failure` (circuit_breaker.py:175-193), with the
exception filter of lines 178-182; `err = none` is a call with no exception
argument (always counted). -/
def record_failure (cfg : CircuitBreakerConfig) (now : ℚ) (err : Option ℕ)
    (s : BreakerState) : BreakerState :=
  match err with
  | some k =>
      if cfg.excluded_exceptions k then s
      else if ¬ cfg.expected_exceptions k then s
      else record_failure_counted cfg now s
  | none => record_failure_counted cfg now s

/-- `CircuitBreaker.allow_request` (circuit_breaker.py:195-205). -/
def allow_request (cfg : CircuitBreakerConfig) (now : ℚ) (s : BreakerState) :
    Bool × BreakerState :=
  let p := is_open cfg now s
  if p.1 then
    (false, { p.2 with
      metrics := { p.2.metrics with
                   rejected_calls := p.2.metrics.rejected_calls + 1 } })
  else (true, p.2)

/-- `CircuitBreaker.reset` (circuit_breaker.py:236-242). -/
def breaker_reset (s : BreakerState) : BreakerState :=
  let s := transition_to .closed s
  { s with failure_count := 0, success_count := 0, last_failure_time := none }

/-- One externally invocable breaker operation. -/
inductive BreakerOp where
  | allowReq (now : ℚ)
  | recSuccess
  | recFailure (now : ℚ) (err : Option ℕ)
  | reset

/-- Apply one breaker operation. -/
def applyBreakerOp (cfg : CircuitBreakerConfig) (s : BreakerState) :
    BreakerOp → BreakerState
  | .allowReq now => (allow_request cfg now s).2
  | .recSuccess => record_success cfg s
  | .recFailure now err => record_failure cfg now err s
  | .reset => breaker_reset s

/-- Run a sequence of breaker operations from the initial state. -/
def runBreaker (cfg : CircuitBreakerConfig) (ops : List BreakerOp) : BreakerState :=
  ops.foldl (applyBreakerOp cfg) BreakerState.initial

/-! ## `cache.py` -/

/-- `CacheEntry` (cache.py:17-40).  `value : α` (`Any` in the source). -/
structure CacheEntry (α : Type) where
  value : α
  created_at : ℚ
  ttl : ℚ
  etag : Option String := none
  last_accessed : Option ℚ := none
deriving DecidableEq

/-- `CacheEntry.is_expired` (cache.py:27-32), at wall-clock `now`. -/
def CacheEntry.is_expired {α : Type} (e : CacheEntry α) (now : ℚ) : Bool :=
  if e.ttl ≤ 0 then false
  else decide (now - e.created_at ≥ e.ttl)

/-- `CacheStats` (cache.py:43-51). -/
structure CacheStats where
  hits : ℕ := 0
  misses : ℕ := 0
  sets : ℕ := 0
  deletes : ℕ := 0
  evictions : ℕ := 0
deriving DecidableEq

/-- `InMemoryCache` (cache.py:108-130): configuration plus mutable state.
`entries` is the `OrderedDict` as an association list, least recently used
first, most recent last; its keys are pairwise distinct.  The source field
`namespace` is a Lean keyword and is called `nspace` here. -/
structure InMemoryCache (α : Type) where
  default_ttl : ℚ := 300
  max_size : ℕ := 1000
  nspace : String := ""
  entries : List (String × CacheEntry α) := []
  stats : CacheStats := {}
deriving DecidableEq

/-- `InMemoryCache._make_key` (cache.py:132-136). -/
def InMemoryCache.make_key {α : Type} (c : InMemoryCache α) (key : String) : String :=
  if c.nspace ≠ "" then c.nspace ++ ":" ++ key else key

/-- `InMemoryCache._evict_expired` (cache.py:138-145). -/
def InMemoryCache.evict_expired {α : Type} (now : ℚ) (c : InMemoryCache α) :
    InMemoryCache α :=
  let expired := c.entries.filter fun kv => kv.2.is_expired now
  { c with
    entries := c.entries.filter fun kv => ¬ kv.2.is_expired now
    stats := { c.stats with evictions := c.stats.evictions + expired.length } }

/-- The loop of `InMemoryCache._evict_lru` (cache.py:147-151):
`while len(cache) >= max_size: popitem(last=False)`.  (With `max_size = 0`
and an empty dict the source would raise `KeyError`; that point is
unreachable under the `max_size ≥ 1` configurations considered.) -/
def evictLruGo {α : Type} (max_size : ℕ) :
    List (String × CacheEntry α) → ℕ → List (String × CacheEntry α) × ℕ
  | [], evicted => ([], evicted)
  | x :: xs, evicted =>
      if max_size ≤ (x :: xs).length then evictLruGo max_size xs (evicted + 1)
      else (x :: xs, evicted)

/-- `InMemoryCache._evict_lru` (cache.py:147-151). -/
def InMemoryCache.evict_lru {α : Type} (c : InMemoryCache α) : InMemoryCache α :=
  let p := evictLruGo c.max_size c.entries 0
  { c with
    entries := p.1
    stats := { c.stats with evictions := c.stats.evictions + p.2 } }

/-- `InMemoryCache.get` (cache.py:153-174). -/
def InMemoryCache.get {α : Type} (now : ℚ) (key : String) (c : InMemoryCache α) :
    Option α × InMemoryCache α :=
  let full_key := c.make_key key
  let c := c.evict_expired now
  match c.entries.find? (fun kv => kv.1 == full_key) with
  | none =>
      (none, { c with stats := { c.stats with misses := c.stats.misses + 1 } })
  | some kv =>
      if kv.2.is_expired now then
        (none, { c with
          entries := c.entries.filter fun e => e.1 ≠ full_key
          stats := { c.stats with misses := c.stats.misses + 1 } })
      else
        (some kv.2.value,
         { c with
           entries := (c.entries.filter fun e => e.1 ≠ full_key) ++
             [(full_key, { kv.2 with last_accessed := some now })]
           stats := { c.stats with hits := c.stats.hits + 1 } })

/-- `InMemoryCache.set` (cache.py:176-200). -/
def InMemoryCache.set {α : Type} (now : ℚ) (key : String) (value : α)
    (ttl : Option ℚ) (etag : Option String) (c : InMemoryCache α) :
    InMemoryCache α :=
  let full_key := c.make_key key
  let effective_ttl := ttl.getD c.default_ttl
  let c := c.evict_lru
  let entry : CacheEntry α :=
    { value := value, created_at := now, ttl := effective_ttl, etag := etag,
      last_accessed := some now }
  { c with
    entries := (c.entries.filter fun e => e.1 ≠ full_key) ++ [(full_key, entry)]
    stats := { c.stats with sets := c.stats.sets + 1 } }

/-- `InMemoryCache.delete` (cache.py:202-211). -/
def InMemoryCache.delete {α : Type} (key : String) (c : InMemoryCache α) :
    Bool × InMemoryCache α :=
  let full_key := c.make_key key
  if c.entries.any fun e => e.1 == full_key then
    (true, { c with
      entries := c.entries.filter fun e => e.1 ≠ full_key
      stats := { c.stats with deletes := c.stats.deletes + 1 } })
  else (false, c)

/-- `InMemoryCache.clear` (cache.py:213-216). -/
def InMemoryCache.clear {α : Type} (c : InMemoryCache α) : InMemoryCache α :=
  { c with entries := [] }

/-- `InMemoryCache.exists` (cache.py:218-229). -/
def InMemoryCache.existsKey {α : Type} (now : ℚ) (key : String)
    (c : InMemoryCache α) : Bool × InMemoryCache α :=
  let full_key := c.make_key key
  match c.entries.find? (fun kv => kv.1 == full_key) with
  | none => (false, c)
  | some kv =>
      if kv.2.is_expired now then
        (false, { c with entries := c.entries.filter fun e => e.1 ≠ full_key })
      else (true, c)

/-- One externally invocable cache operation (`now` is the wall clock at the
moment of the call). -/
inductive CacheOp (α : Type) where
  | get (now : ℚ) (key : String)
  | set (now : ℚ) (key : String) (value : α) (ttl : Option ℚ) (etag : Option String)
  | del (key : String)
  | existsKey (now : ℚ) (key : String)
  | clear

/-- Apply one cache operation, discarding the returned value. -/
def applyCacheOp {α : Type} (c : InMemoryCache α) : CacheOp α → InMemoryCache α
  | .get now key => (InMemoryCache.get now key c).2
  | .set now key value ttl etag => InMemoryCache.set now key value ttl etag c
  | .del key => (InMemoryCache.delete key c).2
  | .existsKey now key => (InMemoryCache.existsKey now key c).2
  | .clear => c.clear

/-- Run a sequence of cache operations from an initially empty cache with the
given configuration. -/
def runCache {α : Type} (default_ttl : ℚ) (max_size : ℕ) (nspace : String)
    (ops : List (CacheOp α)) : InMemoryCache α :=
  ops.foldl applyCacheOp
    { default_ttl := default_ttl, max_size := max_size, nspace := nspace }

/-! ### `generate_cache_key` (cache.py:373-408) -/

/-- One character of Python `json.dumps` string escaping (`ensure_ascii`). -/
def jsonEscapeChar (c : Char) : String :=
  let n := c.toNat
  if c = '"' then "\\\""
  else if c = '\\' then "\\\\"
  else if c = '\n' then "\\n"
  else if c = '\r' then "\\r"
  else if c = '\t' then "\\t"
  else if n = 8 then "\\b"
  else if n = 12 then "\\f"
  else if n < 32 ∨ n > 126 then
    if n < 65536 then
      "\\u" ++ ⟨(List.range 4).map fun i => hexDigit ((n >>> (4 * (3 - i))) % 16)⟩
    else
      let m := n - 65536
      let hi := 55296 + m / 1024
      let lo := 56320 + m % 1024
      "\\u" ++ ⟨(List.range 4).map fun i => hexDigit ((hi >>> (4 * (3 - i))) % 16)⟩ ++
      "\\u" ++ ⟨(List.range 4).map fun i => hexDigit ((lo >>> (4 * (3 - i))) % 16)⟩
  else String.singleton c

/-- Python `json.dumps` of a string. -/
def jsonString (s : String) : String :=
  "\"" ++ (s.data.map jsonEscapeChar).foldl (· ++ ·) "" ++ "\""

/-- Python `json.dumps` of a list of string pairs (rendered as a JSON array
of two-element arrays, with the default separators). -/
def jsonPairList (l : List (String × String)) : String :=
  "[" ++ String.intercalate ", "
    (l.map fun p => "[" ++ jsonString p.1 ++ ", " ++ jsonString p.2 ++ "]") ++ "]"

/-- Python tuple comparison `(k₁, v₁) <= (k₂, v₂)` on string pairs
(code-point lexicographic, as in `sorted`). -/
def pairLeb (a b : String × String) : Bool :=
  if a.1 = b.1 then decide (a.2 ≤ b.2) else decide (a.1 < b.1)

/-- Python `<=` on strings, as a Boolean. -/
def strLeb (a b : String) : Bool :=
  decide (a ≤ b)

/-- `generate_cache_key` (cache.py:373-408).  Params and headers are
association lists with pairwise distinct keys (Python dicts); `params = none`
or `some []` is falsy, as is an absent or empty `include_headers`. -/
def generate_cache_key (method url : String)
    (params : Option (List (String × String)))
    (headers : List (String × String))
    (include_headers : Option (List String)) : String :=
  let key_parts := [strToUpper method, url]
  let key_parts :=
    match params with
    | some l => if l ≠ [] then key_parts ++ [jsonPairList (l.mergeSort pairLeb)]
                else key_parts
    | none => key_parts
  let key_parts :=
    match include_headers with
    | some ih =>
        if headers ≠ [] ∧ ih ≠ [] then
          let header_parts := (ih.mergeSort strLeb).filterMap fun k =>
            match headers.lookup k with
            | some v => some (k, v)
            | none => none
          if header_parts ≠ [] then key_parts ++ [jsonPairList header_parts]
          else key_parts
        else key_parts
    | none => key_parts
  sha256Hex (String.intercalate "|" key_parts)

/-! ## `logging.py` -/

/-- `MaskStyle` (logging.py:12-16); `PARTIAL` is called `partialMask` here. -/
inductive MaskStyle where
  | full
  | partialMask
  | hash
deriving DecidableEq

/-- The redaction-relevant fields of `LogConfig` (logging.py:19-62).
`redact_patterns` (regular expressions applied to bodies and to non-redacted
header values by `_redact_value`) are outside this embedding; where needed,
`_redact_value` is taken as an explicit function parameter. -/
structure LogConfig where
  redact_headers : List String :=
    ["authorization", "x-api-key", "api-key", "apikey", "x-auth-token",
     "cookie", "set-cookie", "x-csrf-token"]
  redact_query_params : List String :=
    ["password", "token", "secret", "api_key", "apikey", "access_token"]
  mask_style : MaskStyle := .partialMask
  partial_mask_chars : ℕ := 4

/-- Python `value[:n]`. -/
def strTake (s : String) (n : ℕ) : String :=
  ⟨s.data.take n⟩

/-- Python `value[-n:]` (for `n = 0` this is the whole string, since
`value[-0:] = value[0:]`). -/
def pyTakeLast (s : String) (n : ℕ) : String :=
  if n = 0 then s else ⟨s.data.drop (s.data.length - n)⟩

/-- `RequestLogger._mask_value` (logging.py:89-111). -/
def mask_value (cfg : LogConfig) (value : String) : String :=
  match cfg.mask_style with
  | .full => "***REDACTED***"
  | .partialMask =>
      let chars := cfg.partial_mask_chars
      if value.length ≤ chars * 2 then "****"
      else strTake value chars ++ "..." ++ pyTakeLast value chars
  | .hash => "[HASH:" ++ strTake (sha256Hex value) 8 ++ "]"

/-- `RequestLogger.redact_headers` (logging.py:113-131).  Headers form a dict
(association list with pairwise distinct keys); `redact_value` stands for
`self._redact_value`, applied to the values of non-redacted headers. -/
def redactHeaders (cfg : LogConfig) (redact_value : String → String)
    (headers : List (String × String)) : List (String × String) :=
  let redact_set := cfg.redact_headers.map strToLower
  headers.map fun kv =>
    if strToLower kv.1 ∈ redact_set then (kv.1, mask_value cfg kv.2)
    else (kv.1, redact_value kv.2)

/-! ### `urllib.parse` helpers used by `redact_url` -/

/-- An uppercase hex digit. -/
def hexDigitU (n : ℕ) : Char :=
  if n < 10 then Char.ofNat (48 + n) else Char.ofNat (55 + n)

/-- The numeric value of a hex digit character, if any. -/
def hexVal (c : Char) : Option ℕ :=
  let n := c.toNat
  if 48 ≤ n ∧ n ≤ 57 then some (n - 48)
  else if 65 ≤ n ∧ n ≤ 70 then some (n - 55)
  else if 97 ≤ n ∧ n ≤ 102 then some (n - 87)
  else none

/-- The replacement character `U+FFFD` used by `errors="replace"`. -/
def replChar : Char := Char.ofNat 65533

/-- Whether a byte is a UTF-8 continuation byte. -/
def isCont (b : ℕ) : Bool := 128 ≤ b ∧ b ≤ 191

/-- UTF-8 decoding with replacement of malformed sequences (a malformed lead
or continuation emits one `U+FFFD` and decoding restarts at the next byte).
`fuel` bounds the recursion (one unit per emitted character). -/
def utf8DecodeGo : ℕ → List ℕ → List Char
  | 0, _ => []
  | _, [] => []
  | fuel + 1, b :: bs =>
      if b < 128 then Char.ofNat b :: utf8DecodeGo fuel bs
      else if 194 ≤ b ∧ b ≤ 223 then
        match bs with
        | c1 :: rest =>
            if isCont c1 then
              Char.ofNat ((b - 192) * 64 + (c1 - 128)) :: utf8DecodeGo fuel rest
            else replChar :: utf8DecodeGo fuel bs
        | [] => [replChar]
      else if 224 ≤ b ∧ b ≤ 239 then
        match bs with
        | c1 :: c2 :: rest =>
            let cp := (b - 224) * 4096 + (c1 - 128) * 64 + (c2 - 128)
            if isCont c1 ∧ isCont c2 ∧ 2048 ≤ cp ∧ (cp < 55296 ∨ 57343 < cp) then
              Char.ofNat cp :: utf8DecodeGo fuel rest
            else replChar :: utf8DecodeGo fuel bs
        | _ => [replChar]
      else if 240 ≤ b ∧ b ≤ 244 then
        match bs with
        | c1 :: c2 :: c3 :: rest =>
            let cp := (b - 240) * 262144 + (c1 - 128) * 4096 + (c2 - 128) * 64 +
                      (c3 - 128)
            if isCont c1 ∧ isCont c2 ∧ isCont c3 ∧ 65536 ≤ cp ∧ cp ≤ 1114111 then
              Char.ofNat cp :: utf8DecodeGo fuel rest
            else replChar :: utf8DecodeGo fuel bs
        | _ => [replChar]
      else replChar :: utf8DecodeGo fuel bs

/-- UTF-8 decoding with replacement. -/
def utf8Decode (bs : List ℕ) : List Char :=
  utf8DecodeGo bs.length bs

/-- Percent-scanning of `urllib.parse.unquote`: `%XY` hex pairs become raw
bytes, other characters contribute their UTF-8 bytes.  `fuel` bounds the
recursion. -/
def pctScanGo : ℕ → List Char → List ℕ
  | 0, _ => []
  | _, [] => []
  | fuel + 1, c :: cs =>
      if c = '%' then
        match cs with
        | c1 :: c2 :: rest =>
            match hexVal c1, hexVal c2 with
            | some h1, some h2 => (h1 * 16 + h2) :: pctScanGo fuel rest
            | _, _ => utf8EncodeChar '%' ++ pctScanGo fuel cs
        | _ => utf8EncodeChar '%' ++ pctScanGo fuel cs
      else utf8EncodeChar c ++ pctScanGo fuel cs

/-- `urllib.parse.unquote` with UTF-8/replace decoding. -/
def unquote (s : String) : String :=
  ⟨utf8Decode (pctScanGo s.data.length s.data)⟩

/-- `urllib.parse.unquote_plus`. -/
def unquote_plus (s : String) : String :=
  unquote ⟨s.data.map fun c => if c = '+' then ' ' else c⟩

/-- `urllib.parse.quote_plus` applied to one UTF-8 byte (`safe=""`:
only alphanumerics and `_.-~` stay literal, space becomes `+`). -/
def quoteByte (b : ℕ) : String :=
  if (48 ≤ b ∧ b ≤ 57) ∨ (65 ≤ b ∧ b ≤ 90) ∨ (97 ≤ b ∧ b ≤ 122) ∨
     b = 95 ∨ b = 46 ∨ b = 45 ∨ b = 126 then String.singleton (Char.ofNat b)
  else if b = 32 then "+"
  else "%" ++ ⟨[hexDigitU (b / 16), hexDigitU (b % 16)]⟩

/-- `urllib.parse.quote_plus` with the default empty `safe` set. -/
def quote_plus (s : String) : String :=
  (utf8Encode s).foldl (fun acc b => acc ++ quoteByte b) ""

/-- Split a character list at the first occurrence of `c`; the remainder (if
any) excludes the separator itself. -/
def splitOnFirstChar (l : List Char) (c : Char) : List Char × Option (List Char) :=
  let p := l.span fun x => x ≠ c
  match p.2 with
  | [] => (l, none)
  | _ :: rest => (p.1, some rest)

/-- `urllib.parse.parse_qsl(qs, keep_blank_values=True)`. -/
def parse_qsl (qs : String) : List (String × String) :=
  (qs.split fun c => c = '&').filterMap fun part =>
    if part = "" then none
    else
      let p := splitOnFirstChar part.data '='
      match p.2 with
      | some v => some (unquote_plus ⟨p.1⟩, unquote_plus ⟨v⟩)
      | none => some (unquote_plus part, "")

/-- Group name/value pairs into `parse_qs`'s dict of value lists (keys in
first-occurrence order, values in occurrence order). -/
def groupParams (l : List (String × String)) : List (String × List String) :=
  l.foldl (fun acc kv =>
    if acc.any fun p => p.1 == kv.1 then
      acc.map fun p => if p.1 == kv.1 then (p.1, p.2 ++ [kv.2]) else p
    else acc ++ [(kv.1, [kv.2])]) []

/-- `urllib.parse.parse_qs(qs, keep_blank_values=True)`. -/
def parse_qs (qs : String) : List (String × List String) :=
  groupParams (parse_qsl qs)

/-- `urllib.parse.urlencode(d, doseq=True)` with the default
`quote_via=quote_plus`. -/
def urlencodeSeq (ps : List (String × List String)) : String :=
  String.intercalate "&"
    ((ps.map fun p => p.2.map fun v => quote_plus p.1 ++ "=" ++ quote_plus v).flatten)

/-- The redaction loop of `redact_url` (logging.py:184-189). -/
def redactQueryParams (cfg : LogConfig) (ps : List (String × List String)) :
    List (String × List String) :=
  let redact_set := cfg.redact_query_params.map strToLower
  ps.map fun p =>
    if strToLower p.1 ∈ redact_set then (p.1, p.2.map (mask_value cfg)) else p

/-- `RequestLogger.redact_url` (logging.py:166-192).  `urlsplit` detaches the
fragment at the first `#`, then the query at the first `?` of the remainder;
`urlunparse` reattaches `?query` and `#fragment` only when non-empty. -/
def redact_url (cfg : LogConfig) (url : String) : String :=
  let hsplit := splitOnFirstChar url.data '#'
  let qsplit := splitOnFirstChar hsplit.1 '?'
  let query : List Char := (qsplit.2.getD [])
  if query = [] then url
  else
    let params := parse_qs ⟨query⟩
    let redacted_params := redactQueryParams cfg params
    let new_query := urlencodeSeq redacted_params
    let frag : String :=
      match hsplit.2 with
      | some f => if f ≠ [] then "#" ++ String.mk f else ""
      | none => ""
    String.mk qsplit.1 ++ (if new_query ≠ "" then "?" ++ new_query else "") ++ frag

/-! ## `client.py` — the execution pipeline `RateWiseClient._make_request`

The transport (`httpx`) is an external collaborator: it is modelled as a
stream `transport : ℕ → TransportOutcome` giving the outcome of each
physical attempt (1-indexed).  A returned response carries the status code,
the body, and the value `parse_retry_after(headers.get("Retry-After"))`
already parsed (`retry_after = none` models an absent or unparseable
header; the claims quantify over parse results, not header strings).
Middleware processing and log emission have no effect on the modelled state
and are omitted.  Python `try/except` scoping is translated faithfully: the
`RateLimitExceeded` and `ServerError` raises of lines 253, 268 and 289 occur
inside the `try:` body and are therefore caught by the `except Exception`
clause of line 382, which records a second breaker failure, increments
`failed_requests` and re-raises `RequestError` wrapping the original error;
raises inside `except` handlers propagate unwrapped. -/

/-- An HTTP response as seen by the pipeline. -/
structure HttpResponse where
  status_code : ℕ
  retry_after : Option ℚ := none
  body : String := ""
deriving DecidableEq

/-- The outcome of one physical transport attempt. -/
inductive TransportOutcome where
  | response (r : HttpResponse)
  | timeoutExc
  | connectExc
  | otherExc
deriving DecidableEq

/-- The original exception wrapped by the generic handler's `RequestError`. -/
inductive WrapCause where
  | rateLimitExceeded (attempts : ℕ) (retry_after : Option ℤ)
  | serverError (status_code : ℕ)
  | transportExc
deriving DecidableEq

/-- The terminal errors `_make_request` can raise (diagnostic-only fields of
the source exceptions are omitted). -/
inductive PipelineError where
  | circuitBreakerOpen (failure_count : ℕ) (recovery_timeout : ℚ)
  | timeoutError
  | connectionError
  | requestError (cause : Option WrapCause)
deriving DecidableEq

/-- The result of a `_make_request` call. -/
inductive PipelineResult where
  | ok (r : HttpResponse)
  | err (e : PipelineError)
deriving DecidableEq

/-- `ClientStats` (models.py:102-112); counters only. -/
structure ClientStats where
  total_requests : ℕ := 0
  successful_requests : ℕ := 0
  failed_requests : ℕ := 0
  total_retries : ℕ := 0
  cache_hits : ℕ := 0
  cache_misses : ℕ := 0
  circuit_breaker_trips : ℕ := 0
deriving DecidableEq

/-- The client-owned mutable state touched by `_make_request`; `sleeps` is
the observation log of the `time.sleep` calls actually performed. -/
structure PState where
  stats : ClientStats := {}
  breaker : BreakerState := {}
  cache : Option (InMemoryCache HttpResponse) := none
  retry_count : ℕ := 0
  retry_delays : List ℚ := []
  sleeps : List ℚ := []
deriving DecidableEq

/-- The client configuration used by `_make_request`: `self.backoff`,
`self.retry_config` and the circuit breaker's configuration. -/
structure ClientModel where
  backoff : ExponentialBackoff := {}
  retry_config : RetryConfig := {}
  breaker_cfg : CircuitBreakerConfig := {}

/-- The per-call arguments of `_make_request` after URL building and header
merging. -/
structure RequestArgs where
  method : String
  url : String := ""
  params : Option (List (String × String)) := none
  headers : List (String × String) := []
  use_cache : Bool := true

/-- Python truthiness of the parsed `Retry-After` value (`None` and `0.0`
are falsy). -/
def raTruthy : Option ℚ → Bool
  | some v => v ≠ 0
  | none => false

/-- Python `int()` truncation of a rational. -/
def pyInt (q : ℚ) : ℤ :=
  q.num.tdiv q.den

/-- The delay computed for a 429 response (client.py:230-237): the parsed
`Retry-After` value if truthy, else the backoff delay; capped by
`max_retry_after` only when `respect_retry_after` holds and the parsed value
is truthy. -/
def compute429Delay (rc : RetryConfig) (b : ExponentialBackoff) (attempt : ℕ)
    (retry_after : Option ℚ) (u : ℚ) : ℚ :=
  let delay :=
    match retry_after with
    | some v => if v ≠ 0 then v else b.calculate_delay attempt u
    | none => b.calculate_delay attempt u
  if rc.respect_retry_after ∧ raTruthy retry_after then min delay rc.max_retry_after
  else delay

/-- The outcome of one iteration of the attempt loop. -/
inductive StepResult where
  | continueLoop (s : PState)
  | done (r : PipelineResult) (s : PState)
deriving DecidableEq

/-- One iteration of the `while` loop of `_make_request` (client.py:202-392),
for the 1-indexed `attempt` (the value after the `attempt += 1` of
line 203). -/
def attemptStep (c : ClientModel) (req : RequestArgs)
    (transport : ℕ → TransportOutcome) (times jitters : ℕ → ℚ)
    (attempt : ℕ) (s : PState) : StepResult :=
  let s := { s with stats.total_requests := s.stats.total_requests + 1 }
  let p := allow_request c.breaker_cfg (times attempt) s.breaker
  let s := { s with breaker := p.2 }
  if ¬ p.1 then
    .done (.err (.circuitBreakerOpen p.2.failure_count c.breaker_cfg.recovery_timeout))
      { s with stats.circuit_breaker_trips := s.stats.circuit_breaker_trips + 1 }
  else
    match transport attempt with
    | .response r =>
        if r.status_code = 429 then
          let retry_after := r.retry_after
          let delay := compute429Delay c.retry_config c.backoff attempt retry_after
            (jitters attempt)
          let s := { s with
            retry_count := s.retry_count + 1
            retry_delays := s.retry_delays ++ [delay]
            stats.total_retries := s.stats.total_retries + 1 }
          if attempt ≥ c.retry_config.max_attempts then
            let br := record_failure c.breaker_cfg (times attempt) none s.breaker
            let br := record_failure c.breaker_cfg (times attempt) none br
            .done (.err (.requestError (some (.rateLimitExceeded attempt
              (if raTruthy retry_after then some (pyInt delay) else none)))))
              { s with breaker := br
                       stats.failed_requests := s.stats.failed_requests + 1 }
          else
            .continueLoop { s with sleeps := s.sleeps ++ [delay] }
        else if should_retry_on_status r.status_code c.retry_config then
          if ¬ is_idempotent_method req.method c.retry_config then
            let br := record_failure c.breaker_cfg (times attempt) none s.breaker
            let br := record_failure c.breaker_cfg (times attempt) none br
            .done (.err (.requestError (some (.serverError r.status_code))))
              { s with breaker := br
                       stats.failed_requests := s.stats.failed_requests + 1 }
          else
            let delay := c.backoff.calculate_delay attempt (jitters attempt)
            let s := { s with
              retry_count := s.retry_count + 1
              retry_delays := s.retry_delays ++ [delay]
              stats.total_retries := s.stats.total_retries + 1 }
            if attempt ≥ c.retry_config.max_attempts then
              let br := record_failure c.breaker_cfg (times attempt) none s.breaker
              let br := record_failure c.breaker_cfg (times attempt) none br
              .done (.err (.requestError (some (.serverError r.status_code))))
                { s with breaker := br
                         stats.failed_requests := s.stats.failed_requests + 1 }
            else
              .continueLoop { s with sleeps := s.sleeps ++ [delay] }
        else
          let s := { s with
            breaker := record_success c.breaker_cfg s.breaker
            stats.successful_requests := s.stats.successful_requests + 1 }
          let s :=
            match s.cache with
            | some cc =>
                if req.use_cache ∧ strToUpper req.method = "GET" ∧
                   200 ≤ r.status_code ∧ r.status_code < 300 then
                  let cache_key := generate_cache_key req.method req.url req.params
                    req.headers none
                  { s with cache := some (InMemoryCache.set (times attempt)
                      cache_key r none none cc) }
                else s
            | none => s
          .done (.ok r) s
    | .timeoutExc =>
        let s := { s with
          breaker := record_failure c.breaker_cfg (times attempt) none s.breaker
          stats.failed_requests := s.stats.failed_requests + 1 }
        if c.retry_config.retry_on_timeout ∧ attempt < c.retry_config.max_attempts then
          let delay := c.backoff.calculate_delay attempt (jitters attempt)
          .continueLoop { s with
            retry_delays := s.retry_delays ++ [delay]
            stats.total_retries := s.stats.total_retries + 1
            sleeps := s.sleeps ++ [delay] }
        else .done (.err .timeoutError) s
    | .connectExc =>
        let s := { s with
          breaker := record_failure c.breaker_cfg (times attempt) none s.breaker
          stats.failed_requests := s.stats.failed_requests + 1 }
        if c.retry_config.retry_on_connection_error ∧
           attempt < c.retry_config.max_attempts then
          let delay := c.backoff.calculate_delay attempt (jitters attempt)
          .continueLoop { s with
            retry_delays := s.retry_delays ++ [delay]
            stats.total_retries := s.stats.total_retries + 1
            sleeps := s.sleeps ++ [delay] }
        else .done (.err .connectionError) s
    | .otherExc =>
        let s := { s with
          breaker := record_failure c.breaker_cfg (times attempt) none s.breaker
          stats.failed_requests := s.stats.failed_requests + 1 }
        .done (.err (.requestError (some .transportExc))) s

/-- The attempt loop, with `fuel = max_attempts - attempt` remaining
iterations.  `fuel = 0` is the loop falling through, which in the source
reaches the defensive `raise RequestError` of line 397 (reachable only with
`max_attempts = 0`, where `last_exception` is still `None`). -/
def runAux (c : ClientModel) (req : RequestArgs)
    (transport : ℕ → TransportOutcome) (times jitters : ℕ → ℚ) :
    ℕ → ℕ → PState → PipelineResult × PState
  | 0, _, s => (.err (.requestError none), s)
  | fuel + 1, attempt, s =>
      match attemptStep c req transport times jitters (attempt + 1) s with
      | .continueLoop s₁ => runAux c req transport times jitters fuel (attempt + 1) s₁
      | .done r s₁ => (r, s₁)

/-- `_make_request` (client.py:132-401): cache read-through (lines 170-177)
followed by the attempt loop.  `times 0` is the wall clock of the pre-loop
cache lookup; `times n` that of attempt `n`. -/
def makeRequest (c : ClientModel) (req : RequestArgs)
    (transport : ℕ → TransportOutcome) (times jitters : ℕ → ℚ)
    (s : PState) : PipelineResult × PState :=
  let startLoop : PState → PipelineResult × PState := fun s =>
    runAux c req transport times jitters c.retry_config.max_attempts 0
      { s with retry_count := 0, retry_delays := [] }
  match s.cache with
  | some cc =>
      if req.use_cache ∧ strToUpper req.method = "GET" then
        let cache_key := generate_cache_key req.method req.url req.params
          req.headers none
        let g := InMemoryCache.get (times 0) cache_key cc
        match g.1 with
        | some v =>
            (.ok v, { s with
              cache := some g.2
              stats.cache_hits := s.stats.cache_hits + 1 })
        | none =>
            startLoop { s with
              cache := some g.2
              stats.cache_misses := s.stats.cache_misses + 1 }
      else startLoop s
  | none => startLoop s

/-! ## Claim C1 — backoff delay bounds -/

attribute [local semireducible] Rat.add Rat.mul Rat.sub

/-- Claim C1, counterexample: with `initial_delay = max_delay = multiplier = 1`,
`jitter` on and `jitter_ratio = 1`, a jitter draw at the top of the uniform
range (`u = 1`) yields `calculate_delay 1 = 2 > max_delay = 1`, so the claimed
invariant `delay ≤ max_delay` fails even though `0 ≤ initial_delay ≤
max_delay`, `multiplier ≥ 1` and `jitter_ratio ∈ [0, 1]`. -/
theorem C1_counterexample :
    ExponentialBackoff.calculate_delay ⟨1, 1, 1, true, 1⟩ 1 1 = 2 ∧
    (⟨1, 1, 1, true, 1⟩ : ExponentialBackoff).max_delay = 1 ∧
    ¬ ExponentialBackoff.calculate_delay ⟨1, 1, 1, true, 1⟩ 1 1 ≤
        (⟨1, 1, 1, true, 1⟩ : ExponentialBackoff).max_delay := by
  refine ⟨by norm_num [ExponentialBackoff.calculate_delay, qpow], rfl, ?_⟩
  norm_num [ExponentialBackoff.calculate_delay, qpow]

/-- The explicit power agrees with Mathlib's monoid power. -/
theorem qpow_eq_pow (q : ℚ) (n : ℕ) : qpow q n = q ^ n := by
  induction n with
  | zero => rfl
  | succ n ih => rw [qpow, ih, pow_succ, mul_comm]

/-- Claim C1 (amended): for every attempt `n ≥ 1`, every configuration with
`0 ≤ initial_delay ≤ max_delay`, `multiplier ≥ 1`, `jitter_ratio ∈ [0, 1]`,
and every value of the uniform jitter draw, `calculate_delay n` lies in
`[0, max_delay * (1 + jitter_ratio)]` — the clamp `max 0` guarantees the
lower bound, but jitter is added after the `min _ max_delay` cap, so the
upper bound is `max_delay * (1 + jitter_ratio)` rather than `max_delay`;
with jitter disabled, `calculate_delay n` equals
`min (initial_delay * multiplier ^ (n-1)) max_delay` exactly (and hence is
at most `max_delay`). -/
theorem C1_calculate_delay_bounds (b : ExponentialBackoff) (n : ℕ) (u : ℚ)
    (hn : 1 ≤ n) (h0 : 0 ≤ b.initial_delay) (h1 : b.initial_delay ≤ b.max_delay)
    (hm : 1 ≤ b.multiplier) (hr0 : 0 ≤ b.jitter_ratio) (hr1 : b.jitter_ratio ≤ 1)
    (hu1 : -1 ≤ u) (hu2 : u ≤ 1) :
    0 ≤ b.calculate_delay n u ∧
    b.calculate_delay n u ≤ b.max_delay * (1 + b.jitter_ratio) ∧
    (b.jitter = false →
      b.calculate_delay n u =
        min (b.initial_delay * qpow b.multiplier (n - 1)) b.max_delay) := by
  have hm0 : (0 : ℚ) ≤ b.multiplier := le_trans zero_le_one hm
  have hp : (0 : ℚ) ≤ qpow b.multiplier (n - 1) := by
    rw [qpow_eq_pow]
    exact pow_nonneg hm0 _
  have hmax0 : (0 : ℚ) ≤ b.max_delay := le_trans h0 h1
  have hb0 : 0 ≤ min (b.initial_delay * qpow b.multiplier (n - 1)) b.max_delay :=
    le_min (mul_nonneg h0 hp) hmax0
  have hbm : min (b.initial_delay * qpow b.multiplier (n - 1)) b.max_delay ≤
      b.max_delay := min_le_right _ _
  unfold ExponentialBackoff.calculate_delay
  cases hj : b.jitter with
  | false =>
      simp only [hj, if_false, Bool.false_eq_true]
      exact ⟨hb0, by nlinarith, by intro h; trivial⟩
  | true =>
      simp only [hj, if_true]
      refine ⟨le_max_left _ _, ?_, by simp⟩
      apply max_le
      · nlinarith
      · have h2 := mul_le_mul_of_nonneg_left hu2 (mul_nonneg hb0 hr0)
        have h3 := mul_le_mul_of_nonneg_right hbm hr0
        nlinarith

/-- Claim C1, witness: the amended bounds evaluated at the default backoff
configuration, attempt 1, and a top-of-range jitter draw. -/
theorem C1_calculate_delay_bounds_witness :
    0 ≤ ExponentialBackoff.calculate_delay ⟨1, 60, 2, true, 1/10⟩ 1 1 ∧
    ExponentialBackoff.calculate_delay ⟨1, 60, 2, true, 1/10⟩ 1 1 ≤
      (⟨1, 60, 2, true, 1/10⟩ : ExponentialBackoff).max_delay *
        (1 + (⟨1, 60, 2, true, 1/10⟩ : ExponentialBackoff).jitter_ratio) ∧
    ((⟨1, 60, 2, true, 1/10⟩ : ExponentialBackoff).jitter = false →
      ExponentialBackoff.calculate_delay ⟨1, 60, 2, true, 1/10⟩ 1 1 =
        min ((⟨1, 60, 2, true, 1/10⟩ : ExponentialBackoff).initial_delay *
          qpow (⟨1, 60, 2, true, 1/10⟩ : ExponentialBackoff).multiplier (1 - 1))
          (⟨1, 60, 2, true, 1/10⟩ : ExponentialBackoff).max_delay) :=
  C1_calculate_delay_bounds ⟨1, 60, 2, true, 1/10⟩ 1 1 (by norm_num) (by norm_num)
    (by norm_num) (by norm_num) (by norm_num) (by norm_num) (by norm_num)
    (by norm_num)

/-! ## Claim C5 — circuit breaker state machine -/

/-- `_transition_to` always lands in the requested state. -/
theorem transition_to_state (new_state : CircuitState) (s : BreakerState) :
    (transition_to new_state s).state = new_state := by
  unfold transition_to
  split_ifs with h <;> simp_all

/-- A genuine transition to `Closed` zeroes both counts. -/
theorem transition_to_closed_counts (s : BreakerState) (h : s.state ≠ .closed) :
    (transition_to .closed s).failure_count = 0 ∧
    (transition_to .closed s).success_count = 0 := by
  unfold transition_to
  rw [if_neg h]
  simp

/-- A genuine transition to `HalfOpen` zeroes the success count and keeps the
failure count. -/
theorem transition_to_halfOpen_counts (s : BreakerState) (h : s.state ≠ .halfOpen) :
    (transition_to .halfOpen s).success_count = 0 ∧
    (transition_to .halfOpen s).failure_count = s.failure_count := by
  unfold transition_to
  rw [if_neg h]
  simp

/-- The breaker invariant of claim C5: failure/success counts stay strictly
below their thresholds in `Closed` / `HalfOpen` respectively. -/
def BreakerInv (cfg : CircuitBreakerConfig) (s : BreakerState) : Prop :=
  (s.state = .closed → s.failure_count < cfg.failure_threshold) ∧
  (s.state = .halfOpen → s.success_count < cfg.success_threshold)

/-- `allow_request` preserves the breaker invariant. -/
theorem breakerInv_allow (cfg : CircuitBreakerConfig) (now : ℚ) (s : BreakerState)
    (hs : 1 ≤ cfg.success_threshold) (h : BreakerInv cfg s) :
    BreakerInv cfg (allow_request cfg now s).2 := by
  have hio : BreakerInv cfg (is_open cfg now s).2 := by
    unfold is_open
    by_cases hst : s.state = .opened
    · rw [if_pos hst]
      by_cases hr : should_attempt_recovery cfg now s = true
      · rw [if_pos hr]
        have h1 := transition_to_state CircuitState.halfOpen s
        have h2 := transition_to_halfOpen_counts s (by rw [hst]; intro hco; cases hco)
        refine ⟨fun hc => ?_, fun _ => ?_⟩
        · rw [h1] at hc
          cases hc
        · rw [h2.1]
          omega
      · rw [if_neg hr]
        exact h
    · rw [if_neg hst]
      exact h
  by_cases hp : (is_open cfg now s).1 = true
  · simp only [allow_request, hp, if_true]
    exact ⟨fun hc => hio.1 hc, fun hc => hio.2 hc⟩
  · simp only [allow_request, Bool.not_eq_true] at hp ⊢
    simp only [hp, Bool.false_eq_true, if_false]
    exact hio

/-- `record_success` preserves the breaker invariant. -/
theorem breakerInv_success (cfg : CircuitBreakerConfig) (s : BreakerState)
    (hf : 1 ≤ cfg.failure_threshold) (hs : 1 ≤ cfg.success_threshold)
    (h : BreakerInv cfg s) :
    BreakerInv cfg (record_success cfg s) := by
  obtain ⟨st, fc, sc, lf, m⟩ := s
  obtain ⟨h1, h2⟩ := h
  simp only [BreakerInv] at h1 h2 ⊢
  rcases st <;>
    simp only [record_success, transition_to] at h1 h2 ⊢ <;>
    (try split_ifs) <;>
    constructor <;> intro hx <;> (try simp_all) <;> omega

/-- `record_failure` preserves the breaker invariant. -/
theorem breakerInv_failure (cfg : CircuitBreakerConfig) (now : ℚ)
    (err : Option ℕ) (s : BreakerState)
    (hf : 1 ≤ cfg.failure_threshold) (h : BreakerInv cfg s) :
    BreakerInv cfg (record_failure cfg now err s) := by
  have hcore : BreakerInv cfg (record_failure_counted cfg now s) := by
    obtain ⟨st, fc, sc, lf, m⟩ := s
    obtain ⟨h1, h2⟩ := h
    simp only [BreakerInv] at h1 h2 ⊢
    rcases st <;>
      simp only [record_failure_counted, transition_to] at h1 h2 ⊢ <;>
      (try split_ifs) <;>
      constructor <;> intro hx <;> (try simp_all) <;> omega
  unfold record_failure
  rcases err with _ | k
  · exact hcore
  · dsimp only
    split_ifs <;> first | exact h | exact hcore

/-- `reset` re-establishes the breaker invariant outright. -/
theorem breakerInv_reset (cfg : CircuitBreakerConfig) (s : BreakerState)
    (hf : 1 ≤ cfg.failure_threshold) (hs : 1 ≤ cfg.success_threshold) :
    BreakerInv cfg (breaker_reset s) := by
  obtain ⟨st, fc, sc, lf, m⟩ := s
  simp only [BreakerInv, breaker_reset, transition_to]
  rcases st <;> (try split_ifs) <;> constructor <;> intro hx <;> (try simp_all) <;> omega

/-- Every state reachable by a sequence of breaker operations satisfies the
breaker invariant. -/
theorem breakerInv_run (cfg : CircuitBreakerConfig)
    (hf : 1 ≤ cfg.failure_threshold) (hs : 1 ≤ cfg.success_threshold)
    (ops : List BreakerOp) :
    BreakerInv cfg (runBreaker cfg ops) := by
  suffices hgen : ∀ (l : List BreakerOp) (s : BreakerState), BreakerInv cfg s →
      BreakerInv cfg (l.foldl (applyBreakerOp cfg) s) by
    exact hgen ops BreakerState.initial ⟨fun _ => by simp [BreakerState.initial]; omega,
      fun hc => by simp [BreakerState.initial] at hc⟩
  intro l
  induction l with
  | nil => exact fun s h => h
  | cons op rest ih =>
      intro s h
      refine ih _ ?_
      cases op with
      | allowReq now => exact breakerInv_allow cfg now s hs h
      | recSuccess => exact breakerInv_success cfg s hf hs h
      | recFailure now err => exact breakerInv_failure cfg now err s hf h
      | reset => exact breakerInv_reset cfg s hf hs

/-- `allow_request` denies exactly when the breaker is `Open` and the
recovery timeout has not elapsed. -/
theorem allow_request_deny_iff (cfg : CircuitBreakerConfig) (now : ℚ)
    (s : BreakerState) :
    (allow_request cfg now s).1 = false ↔
      s.state = .opened ∧ should_attempt_recovery cfg now s = false := by
  unfold allow_request is_open
  by_cases hst : s.state = .opened
  · rw [if_pos hst]
    by_cases hr : should_attempt_recovery cfg now s = true
    · rw [if_pos hr]
      simp [hr]
    · rw [if_neg hr]
      simp only [Bool.not_eq_true] at hr
      simp [hst, hr]
  · rw [if_neg hst]
    simp [hst]

/-- A denial increments `rejected_calls` and changes nothing else of the
breaker state. -/
theorem allow_request_deny_effects (cfg : CircuitBreakerConfig) (now : ℚ)
    (s : BreakerState) (h : (allow_request cfg now s).1 = false) :
    (allow_request cfg now s).2.metrics.rejected_calls =
      s.metrics.rejected_calls + 1 ∧
    (allow_request cfg now s).2.state = s.state ∧
    (allow_request cfg now s).2.failure_count = s.failure_count ∧
    (allow_request cfg now s).2.success_count = s.success_count := by
  rw [allow_request_deny_iff] at h
  obtain ⟨h1, h2⟩ := h
  unfold allow_request is_open
  rw [if_pos h1, h2]
  simp

/-- `_transition_to` never touches `rejected_calls`. -/
theorem transition_to_rejected (new_state : CircuitState) (s : BreakerState) :
    (transition_to new_state s).metrics.rejected_calls =
      s.metrics.rejected_calls := by
  unfold transition_to
  split_ifs <;> rfl

/-- When the breaker is `Open` and the recovery timeout has elapsed,
`allow_request` transitions to `HalfOpen` (resetting `success_count`) and
allows the request without touching `rejected_calls`. -/
theorem allow_request_open_elapsed (cfg : CircuitBreakerConfig) (now : ℚ)
    (s : BreakerState) (hst : s.state = .opened)
    (hr : should_attempt_recovery cfg now s = true) :
    (allow_request cfg now s).1 = true ∧
    (allow_request cfg now s).2.state = .halfOpen ∧
    (allow_request cfg now s).2.success_count = 0 ∧
    (allow_request cfg now s).2.metrics.rejected_calls =
      s.metrics.rejected_calls := by
  have h2 := transition_to_halfOpen_counts s (by rw [hst]; intro hco; cases hco)
  unfold allow_request is_open
  rw [if_pos hst, if_pos hr,
    if_neg (by simp :
      ¬ (((false, transition_to CircuitState.halfOpen s) : Bool × BreakerState).1 = true))]
  exact ⟨rfl, transition_to_state _ _, h2.1, transition_to_rejected _ _⟩

/-- A counted failure in `Closed` opens the breaker exactly when the new
failure count reaches the threshold; below the threshold the breaker stays
`Closed` with the incremented count. -/
theorem record_failure_closed (cfg : CircuitBreakerConfig) (now : ℚ)
    (s : BreakerState) (hst : s.state = .closed) :
    ((record_failure cfg now none s).state = .opened ↔
      cfg.failure_threshold ≤ s.failure_count + 1) ∧
    (¬ cfg.failure_threshold ≤ s.failure_count + 1 →
      (record_failure cfg now none s).state = .closed ∧
      (record_failure cfg now none s).failure_count = s.failure_count + 1) := by
  obtain ⟨st, fc, sc, lf, m⟩ := s
  simp only [] at hst
  subst hst
  simp only [record_failure, record_failure_counted, transition_to]
  split_ifs <;> simp_all <;> omega

/-- A counted failure in `HalfOpen` always opens the breaker. -/
theorem record_failure_halfOpen (cfg : CircuitBreakerConfig) (now : ℚ)
    (s : BreakerState) (hst : s.state = .halfOpen) :
    (record_failure cfg now none s).state = .opened := by
  obtain ⟨st, fc, sc, lf, m⟩ := s
  simp only [] at hst
  subst hst
  simp only [record_failure, record_failure_counted, transition_to]
  split_ifs <;> simp_all

/-- A success in `HalfOpen` closes the breaker exactly when the new success
count reaches the threshold, and closing zeroes both counts. -/
theorem record_success_halfOpen (cfg : CircuitBreakerConfig) (s : BreakerState)
    (hst : s.state = .halfOpen) :
    ((record_success cfg s).state = .closed ↔
      cfg.success_threshold ≤ s.success_count + 1) ∧
    ((record_success cfg s).state = .closed →
      (record_success cfg s).failure_count = 0 ∧
      (record_success cfg s).success_count = 0) := by
  obtain ⟨st, fc, sc, lf, m⟩ := s
  simp only [] at hst
  subst hst
  simp only [record_success, transition_to]
  split_ifs <;> simp_all

/-- `reset()` closes the breaker and zeroes both counts. -/
theorem breaker_reset_spec (s : BreakerState) :
    (breaker_reset s).state = .closed ∧
    (breaker_reset s).failure_count = 0 ∧
    (breaker_reset s).success_count = 0 ∧
    (breaker_reset s).last_failure_time = none := by
  unfold breaker_reset
  exact ⟨transition_to_state .closed s, rfl, rfl, rfl⟩

/-- A failure whose exception kind is excluded, or not expected, is not
counted at all. -/
theorem record_failure_filtered (cfg : CircuitBreakerConfig) (now : ℚ) (k : ℕ)
    (s : BreakerState) :
    (cfg.excluded_exceptions k = true → record_failure cfg now (some k) s = s) ∧
    (cfg.expected_exceptions k = false → record_failure cfg now (some k) s = s) ∧
    (cfg.excluded_exceptions k = false → cfg.expected_exceptions k = true →
      record_failure cfg now (some k) s = record_failure cfg now none s) := by
  simp only [record_failure]
  exact ⟨fun h => by simp [h], fun h => by split_ifs <;> simp_all,
    fun h1 h2 => by simp [h1, h2]⟩

/-- Claim C5: the circuit breaker implements the specified three-state
machine.  For every configuration with positive thresholds (the ones the
spec admits): `allow_request` denies iff the state is `Open` with the
recovery timeout not yet elapsed, incrementing `rejected_calls` on every
denial and changing nothing else; `Open` with the timeout elapsed
transitions to `HalfOpen` (resetting `success_count`) and allows; a counted
failure moves `Closed → Open` exactly when the failure count reaches
`failure_threshold` (below it the breaker stays `Closed` with the
incremented count), and any counted failure in `HalfOpen` moves to `Open`;
the `success_threshold`-th success in `HalfOpen` moves to `Closed`; every
transition into `Closed` resets both counts and every transition into
`HalfOpen` resets `success_count`; a failure with an excluded or unexpected
exception kind is not counted; `reset()` yields `Closed` with both counts
zero; and consequently every reachable state satisfies
`Closed → failure_count < failure_threshold` and
`HalfOpen → success_count < success_threshold`. -/
theorem C5_circuit_breaker (cfg : CircuitBreakerConfig)
    (hf : 1 ≤ cfg.failure_threshold) (hs : 1 ≤ cfg.success_threshold) :
    (∀ now s, (allow_request cfg now s).1 = false ↔
      s.state = .opened ∧ should_attempt_recovery cfg now s = false) ∧
    (∀ now s, (allow_request cfg now s).1 = false →
      (allow_request cfg now s).2.metrics.rejected_calls =
        s.metrics.rejected_calls + 1 ∧
      (allow_request cfg now s).2.state = s.state ∧
      (allow_request cfg now s).2.failure_count = s.failure_count ∧
      (allow_request cfg now s).2.success_count = s.success_count) ∧
    (∀ now s, s.state = .opened → should_attempt_recovery cfg now s = true →
      (allow_request cfg now s).1 = true ∧
      (allow_request cfg now s).2.state = .halfOpen ∧
      (allow_request cfg now s).2.success_count = 0 ∧
      (allow_request cfg now s).2.metrics.rejected_calls =
        s.metrics.rejected_calls) ∧
    (∀ now s, s.state = .closed →
      (((record_failure cfg now none s).state = .opened ↔
        cfg.failure_threshold ≤ s.failure_count + 1) ∧
       (¬ cfg.failure_threshold ≤ s.failure_count + 1 →
        (record_failure cfg now none s).state = .closed ∧
        (record_failure cfg now none s).failure_count = s.failure_count + 1))) ∧
    (∀ now s, s.state = .halfOpen →
      (record_failure cfg now none s).state = .opened) ∧
    (∀ s, s.state = .halfOpen →
      (((record_success cfg s).state = .closed ↔
        cfg.success_threshold ≤ s.success_count + 1) ∧
       ((record_success cfg s).state = .closed →
        (record_success cfg s).failure_count = 0 ∧
        (record_success cfg s).success_count = 0))) ∧
    (∀ s, s.state ≠ .closed →
      (transition_to .closed s).failure_count = 0 ∧
      (transition_to .closed s).success_count = 0) ∧
    (∀ s, s.state ≠ .halfOpen →
      (transition_to .halfOpen s).success_count = 0) ∧
    (∀ now k s, (cfg.excluded_exceptions k = true →
        record_failure cfg now (some k) s = s) ∧
      (cfg.expected_exceptions k = false →
        record_failure cfg now (some k) s = s)) ∧
    (∀ s, (breaker_reset s).state = .closed ∧
      (breaker_reset s).failure_count = 0 ∧
      (breaker_reset s).success_count = 0) ∧
    (∀ ops : List BreakerOp,
      ((runBreaker cfg ops).state = .closed →
        (runBreaker cfg ops).failure_count < cfg.failure_threshold) ∧
      ((runBreaker cfg ops).state = .halfOpen →
        (runBreaker cfg ops).success_count < cfg.success_threshold)) := by
  refine ⟨fun now s => allow_request_deny_iff cfg now s,
    fun now s h => allow_request_deny_effects cfg now s h,
    fun now s h1 h2 => allow_request_open_elapsed cfg now s h1 h2,
    fun now s h => record_failure_closed cfg now s h,
    fun now s h => record_failure_halfOpen cfg now s h,
    fun s h => record_success_halfOpen cfg s h,
    fun s h => transition_to_closed_counts s h,
    fun s h => (transition_to_halfOpen_counts s h).1,
    fun now k s => ⟨(record_failure_filtered cfg now k s).1,
      (record_failure_filtered cfg now k s).2.1⟩,
    fun s => ⟨(breaker_reset_spec s).1, (breaker_reset_spec s).2.1,
      (breaker_reset_spec s).2.2.1⟩,
    fun ops => breakerInv_run cfg hf hs ops⟩

/-- Claim C5, witness: the reachable-state invariant instantiated at the
default configuration after two recorded failures — the breaker is still
`Closed` (discharged by evaluation), so its failure count is below the
threshold 5. -/
theorem C5_circuit_breaker_witness :
    (runBreaker ⟨5, 2, 60, fun _ => true, fun _ => false⟩
        [.recFailure 0 none, .recFailure 1 none]).failure_count < 5 :=
  ((C5_circuit_breaker ⟨5, 2, 60, fun _ => true, fun _ => false⟩
      (by norm_num) (by norm_num)).2.2.2.2.2.2.2.2.2.2
    [.recFailure 0 none, .recFailure 1 none]).1 (by decide)

/-! ## Claim C7 — cache size bound, lazy expiry, expiry characterisation -/

/-- The LRU eviction loop leaves strictly fewer than `max_size` entries
whenever `max_size ≥ 1`. -/
theorem evictLruGo_length {α : Type} (m : ℕ) (hm : 1 ≤ m) :
    ∀ (l : List (String × CacheEntry α)) (k : ℕ),
      (evictLruGo m l k).1.length < m := by
  intro l
  induction l with
  | nil =>
      intro k
      simp only [evictLruGo, List.length_nil]
      omega
  | cons x xs ih =>
      intro k
      simp only [evictLruGo]
      split_ifs with hle
      · exact ih (k + 1)
      · simp only [not_le] at hle
        simpa using hle

/-- `_evict_expired` keeps the configuration fields. -/
theorem evict_expired_fields {α : Type} (now : ℚ) (c : InMemoryCache α) :
    (c.evict_expired now).max_size = c.max_size ∧
    (c.evict_expired now).nspace = c.nspace ∧
    (c.evict_expired now).entries.length ≤ c.entries.length := by
  exact ⟨rfl, rfl, List.length_filter_le _ _⟩

/-- `get` never increases the number of entries and keeps `max_size`. -/
theorem cacheGet_entries_length {α : Type} (now : ℚ) (key : String)
    (c : InMemoryCache α) :
    (InMemoryCache.get now key c).2.entries.length ≤ c.entries.length ∧
    (InMemoryCache.get now key c).2.max_size = c.max_size := by
  have h1 : (c.evict_expired now).entries.length ≤ c.entries.length :=
    List.length_filter_le _ _
  unfold InMemoryCache.get
  cases hmatch : (c.evict_expired now).entries.find?
      (fun kv => kv.1 == c.make_key key) with
  | none => simpa [hmatch] using ⟨h1, rfl⟩
  | some kv =>
      have hmem := List.mem_of_find?_eq_some hmatch
      have hkey : kv.1 = c.make_key key := by
        have := List.find?_some hmatch
        simpa using this
      have hlt : ((c.evict_expired now).entries.filter
          fun e => e.1 ≠ c.make_key key).length <
          (c.evict_expired now).entries.length := by
        rw [List.length_filter_lt_length_iff_exists]
        exact ⟨kv, hmem, by simp [hkey]⟩
      simp only [hmatch]
      split_ifs with hexp
      · exact ⟨le_trans (List.length_filter_le _ _) h1, rfl⟩
      · constructor
        · simp only [List.length_append, List.length_singleton]
          omega
        · rfl

/-- `set` leaves at most `max_size` entries whenever `max_size ≥ 1`, and
keeps `max_size`. -/
theorem cacheSet_entries_length {α : Type} (now : ℚ) (key : String) (v : α)
    (ttl : Option ℚ) (etag : Option String) (c : InMemoryCache α)
    (hm : 1 ≤ c.max_size) :
    (InMemoryCache.set now key v ttl etag c).entries.length ≤ c.max_size ∧
    (InMemoryCache.set now key v ttl etag c).max_size = c.max_size := by
  have hlru := evictLruGo_length (α := α) c.max_size hm c.entries 0
  unfold InMemoryCache.set InMemoryCache.evict_lru
  constructor
  · simp only [List.length_append, List.length_singleton]
    have := List.length_filter_le (fun e => decide (e.1 ≠ c.make_key key))
      (evictLruGo c.max_size c.entries 0).1
    omega
  · rfl

/-- One cache operation preserves the size bound and the configuration. -/
theorem applyCacheOp_size {α : Type} (c : InMemoryCache α) (op : CacheOp α)
    (hm : 1 ≤ c.max_size) (h : c.entries.length ≤ c.max_size) :
    (applyCacheOp c op).entries.length ≤ (applyCacheOp c op).max_size ∧
    (applyCacheOp c op).max_size = c.max_size := by
  cases op with
  | get now key =>
      have hg := cacheGet_entries_length now key c
      dsimp only [applyCacheOp]
      exact ⟨by rw [hg.2]; exact le_trans hg.1 h, hg.2⟩
  | set now key v ttl etag =>
      have hs := cacheSet_entries_length now key v ttl etag c hm
      dsimp only [applyCacheOp]
      exact ⟨by rw [hs.2]; exact hs.1, hs.2⟩
  | del key =>
      dsimp only [applyCacheOp]
      simp only [InMemoryCache.delete]
      split_ifs with hin
      · exact ⟨le_trans (List.length_filter_le _ _) h, rfl⟩
      · exact ⟨h, rfl⟩
  | existsKey now key =>
      dsimp only [applyCacheOp]
      simp only [InMemoryCache.existsKey]
      cases hmatch : c.entries.find? (fun kv => kv.1 == c.make_key key) with
      | none =>
          simp only [hmatch]
          exact ⟨h, trivial⟩
      | some kv =>
          simp only [hmatch]
          split_ifs with hexp
          · exact ⟨le_trans (List.length_filter_le _ _) h, rfl⟩
          · exact ⟨h, rfl⟩
  | clear =>
      dsimp only [applyCacheOp]
      unfold InMemoryCache.clear
      exact ⟨by simp, rfl⟩

/-- After any operation sequence from an empty cache with `max_size ≥ 1`,
the number of stored entries never exceeds `max_size`. -/
theorem runCache_size {α : Type} (default_ttl : ℚ) (max_size : ℕ)
    (ns : String) (hm : 1 ≤ max_size) (ops : List (CacheOp α)) :
    (runCache default_ttl max_size ns ops).entries.length ≤ max_size := by
  suffices hgen : ∀ (l : List (CacheOp α)) (c : InMemoryCache α),
      c.max_size = max_size → c.entries.length ≤ c.max_size →
      (l.foldl applyCacheOp c).entries.length ≤ (l.foldl applyCacheOp c).max_size ∧
      (l.foldl applyCacheOp c).max_size = max_size by
    have := hgen ops
      { default_ttl := default_ttl, max_size := max_size, nspace := ns }
      rfl (by simp)
    exact le_trans this.1 (le_of_eq this.2)
  intro l
  induction l with
  | nil => exact fun c h1 h2 => ⟨h2, h1⟩
  | cons op rest ih =>
      intro c h1 h2
      have hstep := applyCacheOp_size c op (h1 ▸ hm) h2
      exact ih _ (hstep.2.trans h1) hstep.1

/-- All entries surviving `_evict_expired` are non-expired at that moment. -/
theorem evict_expired_sound {α : Type} (now : ℚ) (c : InMemoryCache α) :
    ∀ kv ∈ (c.evict_expired now).entries, kv.2.is_expired now = false := by
  intro kv hkv
  have := List.of_mem_filter hkv
  simpa using this

/-- `_evict_expired` adds exactly the number of evicted (expired) entries to
`stats.evictions`. -/
theorem evict_expired_count {α : Type} (now : ℚ) (c : InMemoryCache α) :
    (c.evict_expired now).stats.evictions =
      c.stats.evictions +
        (c.entries.filter fun kv => kv.2.is_expired now).length := rfl

/-- Every entry still present after a `get` is non-expired at the `get`'s
wall clock. -/
theorem cacheGet_entries_fresh {α : Type} (now : ℚ) (key : String)
    (c : InMemoryCache α) :
    ∀ kv ∈ (InMemoryCache.get now key c).2.entries,
      kv.2.is_expired now = false := by
  intro kv
  unfold InMemoryCache.get
  cases hmatch : (c.evict_expired now).entries.find?
      (fun kv => kv.1 == c.make_key key) with
  | none =>
      simp only [hmatch]
      exact fun hkv => evict_expired_sound now c kv hkv
  | some kv0 =>
      have hkv0 : kv0.2.is_expired now = false :=
        evict_expired_sound now c kv0 (List.mem_of_find?_eq_some hmatch)
      simp only [hmatch]
      split_ifs with hexp
      · intro hkv
        exact evict_expired_sound now c kv (List.mem_filter.mp hkv).1
      · intro hkv
        rcases List.mem_append.mp hkv with hl | hr
        · exact evict_expired_sound now c kv (List.mem_filter.mp hl).1
        · have : kv = (c.make_key key, { kv0.2 with last_accessed := some now }) := by
            simpa using hr
          rw [this]
          simpa [CacheEntry.is_expired] using hkv0

/-- Claim C7: for every `InMemoryCache` with `max_size ≥ 1` and every finite
operation sequence, the entry count never exceeds `max_size`; a `get` first
evicts every expired entry, adds the evicted count to `stats.evictions`, and
every entry still present afterwards is non-expired at that moment; and an
entry is expired iff `ttl > 0 ∧ now - created_at ≥ ttl`, with `ttl ≤ 0`
meaning it never expires. -/
theorem C7_cache_invariants (α : Type) (default_ttl : ℚ) (max_size : ℕ)
    (ns : String) (hm : 1 ≤ max_size) :
    (∀ ops : List (CacheOp α),
      (runCache default_ttl max_size ns ops).entries.length ≤ max_size) ∧
    (∀ (c : InMemoryCache α) (now : ℚ),
      (∀ kv ∈ (c.evict_expired now).entries, kv.2.is_expired now = false) ∧
      (c.evict_expired now).stats.evictions =
        c.stats.evictions +
          (c.entries.filter fun kv => kv.2.is_expired now).length) ∧
    (∀ (c : InMemoryCache α) (now : ℚ) (key : String),
      ∀ kv ∈ (InMemoryCache.get now key c).2.entries,
        kv.2.is_expired now = false) ∧
    (∀ (e : CacheEntry α) (now : ℚ),
      (e.is_expired now = true ↔ 0 < e.ttl ∧ e.ttl ≤ now - e.created_at) ∧
      (e.ttl ≤ 0 → e.is_expired now = false)) := by
  refine ⟨runCache_size default_ttl max_size ns hm,
    fun c now => ⟨evict_expired_sound now c, evict_expired_count now c⟩,
    fun c now key => cacheGet_entries_fresh now key c,
    fun e now => ⟨?_, fun h => by simp [CacheEntry.is_expired, h]⟩⟩
  unfold CacheEntry.is_expired
  split_ifs with h
  · simp only [Bool.false_eq_true, false_iff]
    intro hc
    linarith [hc.1]
  · simp only [not_le] at h
    simp [h, ge_iff_le]

/-- Claim C7, witness: the size bound instantiated for a cache of capacity 1
after two `set`s and a `get`. -/
theorem C7_cache_invariants_witness :
    (runCache (α := ℕ) 300 1 ""
      [.set 0 "a" 1 none none, .set 1 "b" 2 none none, .get 2 "b"]).entries.length
      ≤ 1 :=
  (C7_cache_invariants ℕ 300 1 "" (by norm_num)).1
    [.set 0 "a" 1 none none, .set 1 "b" 2 none none, .get 2 "b"]

/-! ## Claim C9 — cache-key fingerprint -/

/-- Python tuple order on string pairs is transitive. -/
theorem pairLeb_trans (a b c : String × String) (hab : pairLeb a b = true)
    (hbc : pairLeb b c = true) : pairLeb a c = true := by
  unfold pairLeb at *
  by_cases h1 : a.1 = b.1 <;> by_cases h2 : b.1 = c.1
  · rw [if_pos h1] at hab
    rw [if_pos h2] at hbc
    rw [if_pos (h1.trans h2)]
    simp only [decide_eq_true_eq] at *
    exact le_trans hab hbc
  · rw [if_pos h1] at hab
    rw [if_neg h2] at hbc
    simp only [decide_eq_true_eq] at hab hbc
    rw [if_neg fun hc => h2 (h1.symm.trans hc)]
    simp only [decide_eq_true_eq]
    exact h1.symm ▸ hbc
  · rw [if_neg h1] at hab
    rw [if_pos h2] at hbc
    simp only [decide_eq_true_eq] at hab
    rw [if_neg fun hc => h1 (hc.trans h2.symm)]
    simp only [decide_eq_true_eq]
    exact h2 ▸ hab
  · rw [if_neg h1] at hab
    rw [if_neg h2] at hbc
    simp only [decide_eq_true_eq] at hab hbc
    have hlt := lt_trans hab hbc
    rw [if_neg fun hc => absurd (hc ▸ hlt) (lt_irrefl _)]
    simp only [decide_eq_true_eq]
    exact hlt

/-- Python tuple order on string pairs is total. -/
theorem pairLeb_total (a b : String × String) :
    pairLeb a b = true ∨ pairLeb b a = true := by
  unfold pairLeb
  by_cases h1 : a.1 = b.1
  · rw [if_pos h1, if_pos h1.symm]
    simpa using le_total a.2 b.2
  · rw [if_neg h1, if_neg (fun hc => h1 hc.symm)]
    simpa using lt_or_gt_of_ne h1

/-- Python tuple order on string pairs is antisymmetric. -/
theorem pairLeb_antisymm (a b : String × String) (hab : pairLeb a b = true)
    (hba : pairLeb b a = true) : a = b := by
  unfold pairLeb at hab hba
  by_cases h1 : a.1 = b.1
  · rw [if_pos h1] at hab
    rw [if_pos h1.symm] at hba
    simp only [decide_eq_true_eq] at hab hba
    exact Prod.ext h1 (le_antisymm hab hba)
  · rw [if_neg h1] at hab
    rw [if_neg (fun hc => h1 hc.symm)] at hba
    simp only [decide_eq_true_eq] at hab hba
    exact absurd (lt_trans hab hba) (lt_irrefl _)

/-- Sorting by the Python tuple order depends only on the multiset of pairs:
permuted inputs sort to the same list. -/
theorem mergeSort_pairLeb_perm (l₁ l₂ : List (String × String))
    (hp : l₁.Perm l₂) : l₁.mergeSort pairLeb = l₂.mergeSort pairLeb := by
  have hs₁ := List.sorted_mergeSort
    (fun a b c => pairLeb_trans a b c)
    (fun a b => by rcases pairLeb_total a b with h | h <;> simp [h]) l₁
  have hs₂ := List.sorted_mergeSort
    (fun a b c => pairLeb_trans a b c)
    (fun a b => by rcases pairLeb_total a b with h | h <;> simp [h]) l₂
  exact @List.eq_of_perm_of_sorted _ (fun a b => pairLeb a b = true)
    ⟨fun a b hab hba => pairLeb_antisymm a b hab hba⟩ _ _
    ((List.mergeSort_perm l₁ _).trans (hp.trans (List.mergeSort_perm l₂ _).symm))
    hs₁ hs₂

/-- Claim C9: `generate_cache_key` is deterministic; permuting the `params`
mapping leaves the key unchanged; headers agreeing on every name in
`include_headers` produce the same key; and with `include_headers` absent —
as in the pipeline's call sites (client.py:171 and 320) — the headers have
no influence at all. -/
theorem C9_generate_cache_key :
    (∀ (m u : String) (p : Option (List (String × String)))
       (h : List (String × String)) (ih : Option (List String)),
      generate_cache_key m u p h ih = generate_cache_key m u p h ih) ∧
    (∀ (m u : String) (p₁ p₂ : List (String × String))
       (h : List (String × String)) (ih : Option (List String)),
      p₁.Perm p₂ →
      generate_cache_key m u (some p₁) h ih =
        generate_cache_key m u (some p₂) h ih) ∧
    (∀ (m u : String) (p : Option (List (String × String)))
       (h₁ h₂ : List (String × String)) (ih : List String),
      (∀ k ∈ ih, h₁.lookup k = h₂.lookup k) →
      generate_cache_key m u p h₁ (some ih) =
        generate_cache_key m u p h₂ (some ih)) ∧
    (∀ (m u : String) (p : Option (List (String × String)))
       (h₁ h₂ : List (String × String)),
      generate_cache_key m u p h₁ none = generate_cache_key m u p h₂ none) := by
  refine ⟨fun m u p h ih => rfl, ?_, ?_, fun m u p h₁ h₂ => rfl⟩
  · intro m u p₁ p₂ h ih hp
    simp only [generate_cache_key]
    by_cases hnil : p₁ = []
    · have hnil₂ : p₂ = [] := ((hnil ▸ hp).symm).eq_nil
      rw [hnil, hnil₂]
    · have hnil₂ : ¬ p₂ = [] := fun hc => hnil ((hc ▸ hp).eq_nil)
      rw [if_pos hnil, if_pos hnil₂, mergeSort_pairLeb_perm p₁ p₂ hp]
  · intro m u p h₁ h₂ ih hagree
    have hparts :
        ((ih.mergeSort strLeb).filterMap fun k =>
          match h₁.lookup k with
          | some v => some (k, v)
          | none => none) =
        ((ih.mergeSort strLeb).filterMap fun k =>
          match h₂.lookup k with
          | some v => some (k, v)
          | none => none) := by
      apply List.filterMap_congr
      intro k hk
      rw [hagree k ((List.mergeSort_perm ih strLeb).mem_iff.mp hk)]
    simp only [generate_cache_key]
    by_cases hih : ih = []
    · rw [hih]
      simp
    · rw [hparts]
      by_cases h1e : h₁ = []
      · by_cases h2e : h₂ = []
        · rw [if_neg (show ¬ (h₁ ≠ [] ∧ ih ≠ []) by simp [h1e]),
              if_neg (show ¬ (h₂ ≠ [] ∧ ih ≠ []) by simp [h2e])]
        · have hnilparts : ((ih.mergeSort strLeb).filterMap fun k =>
              match h₂.lookup k with
              | some v => some (k, v)
              | none => none) = [] := by
            rw [← hparts, List.filterMap_eq_nil]
            intro k hk
            simp [h1e]
          rw [if_neg (show ¬ (h₁ ≠ [] ∧ ih ≠ []) by simp [h1e]),
              if_pos (show h₂ ≠ [] ∧ ih ≠ [] from ⟨h2e, hih⟩),
              if_neg (show ¬ (((ih.mergeSort strLeb).filterMap fun k =>
                match h₂.lookup k with
                | some v => some (k, v)
                | none => none) ≠ []) by simp [hnilparts])]
      · by_cases h2e : h₂ = []
        · have hnilparts : ((ih.mergeSort strLeb).filterMap fun k =>
              match h₂.lookup k with
              | some v => some (k, v)
              | none => none) = [] := by
            rw [List.filterMap_eq_nil]
            intro k hk
            simp [h2e]
          rw [if_pos (show h₁ ≠ [] ∧ ih ≠ [] from ⟨h1e, hih⟩),
              if_neg (show ¬ (h₂ ≠ [] ∧ ih ≠ []) by simp [h2e]),
              if_neg (show ¬ (((ih.mergeSort strLeb).filterMap fun k =>
                match h₂.lookup k with
                | some v => some (k, v)
                | none => none) ≠ []) by simp [hnilparts])]
        · rw [if_pos (show h₁ ≠ [] ∧ ih ≠ [] from ⟨h1e, hih⟩),
              if_pos (show h₂ ≠ [] ∧ ih ≠ [] from ⟨h2e, hih⟩)]

/-- Claim C9, witness: reordering a two-entry params dict gives the same
fingerprint. -/
theorem C9_generate_cache_key_witness :
    generate_cache_key "get" "https://api.example.com/u"
      (some [("id", "1"), ("page", "2")]) [("Authorization", "secret")] none =
    generate_cache_key "get" "https://api.example.com/u"
      (some [("page", "2"), ("id", "1")]) [("Authorization", "secret")] none :=
  C9_generate_cache_key.2.1 "get" "https://api.example.com/u"
    [("id", "1"), ("page", "2")] [("page", "2"), ("id", "1")]
    [("Authorization", "secret")] none (by decide)

/-! ## Claim C6 — redaction of headers and query parameters -/

/-- Looking up a key in a key-preserving value-map of a dict (association
list with distinct keys) yields the mapped value. -/
theorem lookup_map_assoc {β γ : Type} (f : String → β → γ)
    (l : List (String × β)) (k : String) (v : β)
    (hnd : (l.map Prod.fst).Nodup) (hmem : (k, v) ∈ l) :
    (l.map fun kv => (kv.1, f kv.1 kv.2)).lookup k = some (f k v) := by
  induction l with
  | nil => cases hmem
  | cons hd tl ih =>
      simp only [List.map_cons, List.nodup_cons] at hnd
      rcases List.mem_cons.mp hmem with heq | hmem2
      · rw [← heq]
        simp [List.lookup]
      · have hk : k ∈ tl.map Prod.fst := List.mem_map.mpr ⟨(k, v), hmem2, rfl⟩
        have hne : ¬ hd.1 = k := fun hc => hnd.1 (hc ▸ hk)
        have hbeq : (k == hd.1) = false :=
          beq_eq_false_iff_ne.mpr fun hc => hne hc.symm
        simp only [List.map_cons, List.lookup, hbeq]
        exact ih hnd.2 hmem2

/-- The length of a mask never exceeds the sum in this bound; an infix is
never longer than its host. -/
theorem not_infix_of_longer (v m : String) (h : m.length < v.length) :
    ¬ v.data <:+: m.data := by
  intro hc
  have := hc.length_le
  simp only [String.length] at h
  omega

/-- Claim C6 (amended): a header whose lower-cased name is listed in
`redact_headers` is rendered by `redact_headers` with its value replaced by
`_mask_value(value)`, and a query parameter whose lower-cased name is listed
in `redact_query_params` has every value replaced by `_mask_value` in
`redact_url`'s parameter transform; `_mask_value` follows the configured
style — `FULL` gives `***REDACTED***`; `PARTIAL(n)` gives `****` when
`len(value) ≤ 2n` and otherwise `value[:n] ++ "..." ++ value[-n:]` (for
`n ≥ 1` the last `n` characters); `HASH` gives `[HASH:` ++ the first 8 hex
characters of `sha256(value)` ++ `]` — and the replacement does not contain
the original value as a substring whenever the value is strictly longer
than the replacement (without that proviso the property fails, see the
counterexample); a URL without a query string is returned unchanged. -/
theorem C6_redaction :
    (∀ (cfg : LogConfig) (rv : String → String)
       (headers : List (String × String)) (k v : String),
      (headers.map Prod.fst).Nodup → (k, v) ∈ headers →
      strToLower k ∈ cfg.redact_headers.map strToLower →
      (redactHeaders cfg rv headers).lookup k = some (mask_value cfg v)) ∧
    (∀ (cfg : LogConfig) (ps : List (String × List String)) (k : String)
       (vs : List String),
      (ps.map Prod.fst).Nodup → (k, vs) ∈ ps →
      strToLower k ∈ cfg.redact_query_params.map strToLower →
      (redactQueryParams cfg ps).lookup k = some (vs.map (mask_value cfg))) ∧
    (∀ (cfg : LogConfig) (v : String),
      (cfg.mask_style = .full → mask_value cfg v = "***REDACTED***") ∧
      (cfg.mask_style = .partialMask →
        (v.length ≤ 2 * cfg.partial_mask_chars → mask_value cfg v = "****") ∧
        (2 * cfg.partial_mask_chars < v.length → 1 ≤ cfg.partial_mask_chars →
          mask_value cfg v = strTake v cfg.partial_mask_chars ++ "..." ++
            String.mk (v.data.drop (v.data.length - cfg.partial_mask_chars)))) ∧
      (cfg.mask_style = .hash →
        mask_value cfg v = "[HASH:" ++ strTake (sha256Hex v) 8 ++ "]")) ∧
    (∀ (cfg : LogConfig) (v : String),
      (mask_value cfg v).length < v.length →
      ¬ v.data <:+: (mask_value cfg v).data) ∧
    (∀ (cfg : LogConfig) (url : String),
      (splitOnFirstChar (splitOnFirstChar url.data '#').1 '?').2.getD [] = [] →
      redact_url cfg url = url) := by
  refine ⟨?_, ?_, ?_, ?_, ?_⟩
  · intro cfg rv headers k v hnd hmem hred
    simp only [redactHeaders]
    have hsame : (headers.map fun kv =>
        if strToLower kv.1 ∈ cfg.redact_headers.map strToLower then
          (kv.1, mask_value cfg kv.2) else (kv.1, rv kv.2)) =
        (headers.map fun kv => (kv.1,
          if strToLower kv.1 ∈ cfg.redact_headers.map strToLower then
            mask_value cfg kv.2 else rv kv.2)) := by
      apply List.map_congr_left
      intro kv _
      split_ifs <;> rfl
    rw [hsame]
    exact (lookup_map_assoc
      (fun k v => if strToLower k ∈ cfg.redact_headers.map strToLower then
        mask_value cfg v else rv v) headers k v hnd hmem).trans
      (by rw [if_pos hred])
  · intro cfg ps k vs hnd hmem hred
    simp only [redactQueryParams]
    have hsame : (ps.map fun p =>
        if strToLower p.1 ∈ cfg.redact_query_params.map strToLower then
          (p.1, p.2.map (mask_value cfg)) else p) =
        (ps.map fun kv => (kv.1,
          if strToLower kv.1 ∈ cfg.redact_query_params.map strToLower then
            kv.2.map (mask_value cfg) else kv.2)) := by
      apply List.map_congr_left
      intro kv _
      split_ifs <;> rfl
    rw [hsame]
    exact (lookup_map_assoc
      (fun k vs => if strToLower k ∈ cfg.redact_query_params.map strToLower then
        vs.map (mask_value cfg) else vs) ps k vs hnd hmem).trans
      (by rw [if_pos hred])
  · intro cfg v
    refine ⟨fun h => by simp [mask_value, h], fun h => ⟨fun hlen => ?_, fun hlen hn => ?_⟩,
      fun h => by simp [mask_value, h]⟩
    · simp only [mask_value, h]
      rw [if_pos (by omega)]
    · simp only [mask_value, h]
      rw [if_neg (by omega)]
      simp only [pyTakeLast]
      rw [if_neg (by omega)]
  · intro cfg v h
    exact not_infix_of_longer v (mask_value cfg v) h
  · intro cfg url h
    unfold redact_url
    rw [if_pos h]

/-- Claim C6, counterexample: with the default configuration
(`PARTIAL`, `n = 4`) the value `"abcd...wxyz"` of a redacted `Authorization`
header is masked to itself — `value[:4] ++ "..." ++ value[-4:]` reproduces
the value — so the rendered output contains the original value verbatim. -/
theorem C6_counterexample :
    mask_value {} "abcd...wxyz" = "abcd...wxyz" ∧
    redactHeaders {} id [("Authorization", "abcd...wxyz")] =
      [("Authorization", "abcd...wxyz")] ∧
    strToLower "Authorization" ∈ (({} : LogConfig)).redact_headers := by
  refine ⟨by decide, ?_, by decide⟩
  decide

/-- Claim C6, witness: the header-redaction conjunct evaluated on a
`FULL`-style configuration and a concrete header dict. -/
theorem C6_redaction_witness :
    (redactHeaders { mask_style := .full } id
      [("Authorization", "Bearer secret-token-12345"), ("Accept", "json")]).lookup
        "Authorization" = some (mask_value { mask_style := .full }
          "Bearer secret-token-12345") :=
  C6_redaction.1 { mask_style := .full } id
    [("Authorization", "Bearer secret-token-12345"), ("Accept", "json")]
    "Authorization" "Bearer secret-token-12345" (by decide) (by decide) (by decide)

/-! ## Claim C2 — 429 delay selection -/

/-- Claim C2, counterexample: with `respect_retry_after = false` and a 429
carrying `Retry-After` parsed as 5, the pipeline sleeps 5.0 — not the
backoff-computed delay 1.0 as claimed (`delay = retry_after if retry_after
else backoff` is computed before `respect_retry_after` is consulted, which
only gates the `max_retry_after` cap). -/
theorem C2_counterexample :
    (makeRequest
      { backoff := { jitter := false },
        retry_config := { jitter := false, respect_retry_after := false } }
      { method := "GET" }
      (fun n => if n = 1 then .response { status_code := 429, retry_after := some 5 }
        else .response { status_code := 200 })
      (fun _ => 0) (fun _ => 0) {}).2.sleeps = [5] ∧
    ExponentialBackoff.calculate_delay { jitter := false } 1 0 = 1 ∧
    (5 : ℚ) ≠ 1 := by
  exact ⟨by decide, by norm_num [ExponentialBackoff.calculate_delay, qpow], by norm_num⟩

/-- Claim C2 (amended): when the pipeline retries a 429, the delay slept
before the next attempt is: `min(r, max_retry_after)` when the header parses
to a truthy `r ≠ 0` and `respect_retry_after` holds; the uncapped `r` when
`r ≠ 0` but `respect_retry_after` is false; and the backoff-computed delay
when the header is absent, unparseable, or parses to 0 (Python falsiness of
`0.0`).  In particular, with `Retry-After: 5`, `respect_retry_after = true`
and `max_retry_after = 300`, the observed sleep is exactly 5.0. -/
theorem C2_retry_after_delay :
    (∀ (rc : RetryConfig) (b : ExponentialBackoff) (attempt : ℕ) (r u : ℚ),
      r ≠ 0 →
      (rc.respect_retry_after = true →
        compute429Delay rc b attempt (some r) u = min r rc.max_retry_after) ∧
      (rc.respect_retry_after = false →
        compute429Delay rc b attempt (some r) u = r)) ∧
    (∀ (rc : RetryConfig) (b : ExponentialBackoff) (attempt : ℕ) (u : ℚ),
      compute429Delay rc b attempt none u = b.calculate_delay attempt u ∧
      compute429Delay rc b attempt (some 0) u = b.calculate_delay attempt u) ∧
    (∀ (c : ClientModel) (req : RequestArgs) (transport : ℕ → TransportOutcome)
       (times jitters : ℕ → ℚ) (attempt : ℕ) (s : PState) (r : HttpResponse),
      transport (attempt + 1) = .response r → r.status_code = 429 →
      attempt + 1 < c.retry_config.max_attempts →
      (allow_request c.breaker_cfg (times (attempt + 1)) s.breaker).1 = true →
      ∃ s₁, attemptStep c req transport times jitters (attempt + 1) s =
          .continueLoop s₁ ∧
        s₁.sleeps = s.sleeps ++
          [compute429Delay c.retry_config c.backoff (attempt + 1) r.retry_after
            (jitters (attempt + 1))] ∧
        s₁.breaker = (allow_request c.breaker_cfg (times (attempt + 1)) s.breaker).2 ∧
        s₁.stats.failed_requests = s.stats.failed_requests) ∧
    (makeRequest { backoff := { jitter := false }, retry_config := { jitter := false } }
      { method := "GET" }
      (fun n => if n = 1 then .response { status_code := 429, retry_after := some 5 }
        else .response { status_code := 200 })
      (fun _ => 0) (fun _ => 0) {}).2.sleeps = [5] ∧
    (makeRequest { backoff := { jitter := false }, retry_config := { jitter := false } }
      { method := "GET" }
      (fun n => if n = 1 then .response { status_code := 429, retry_after := some 5 }
        else .response { status_code := 200 })
      (fun _ => 0) (fun _ => 0) {}).1 = .ok { status_code := 200 } := by
  refine ⟨?_, ?_, ?_, by decide, by decide⟩
  · intro rc b attempt r u hr
    constructor <;> intro hresp <;>
      simp [compute429Delay, raTruthy, hr, hresp]
  · intro rc b attempt u
    constructor <;> simp [compute429Delay, raTruthy]
  · intro c req transport times jitters attempt s r htr h429 hlt hallow
    have hge : ¬ (attempt + 1 ≥ c.retry_config.max_attempts) := by omega
    simp only [attemptStep, htr, h429, hallow, hge, not_true, Bool.not_eq_true,
      if_false, ite_false, ite_true, reduceIte]
    exact ⟨_, rfl, rfl, rfl, rfl⟩

/-- Claim C2, witness: the retried-429 step conjunct evaluated at attempt 1
of a fresh state with a concrete transport. -/
theorem C2_retry_after_delay_witness :
    ∃ s₁, attemptStep { backoff := { jitter := false }, retry_config := { jitter := false } }
        { method := "GET" }
        (fun n => if n = 1 then .response { status_code := 429, retry_after := some 5 }
          else .response { status_code := 200 })
        (fun _ => 0) (fun _ => 0) 1 {} = .continueLoop s₁ ∧
      s₁.sleeps = ([] : List ℚ) ++
        [compute429Delay { jitter := false } { jitter := false } 1 (some 5) 0] ∧
      s₁.breaker = (allow_request {} 0 ({} : PState).breaker).2 ∧
      s₁.stats.failed_requests = ({} : PState).stats.failed_requests :=
  C2_retry_after_delay.2.2.1 { backoff := { jitter := false }, retry_config := { jitter := false } }
    { method := "GET" }
    (fun n => if n = 1 then .response { status_code := 429, retry_after := some 5 }
      else .response { status_code := 200 })
    (fun _ => 0) (fun _ => 0) 0 {} { status_code := 429, retry_after := some 5 }
    (by decide) rfl (by decide) (by decide)

/-! ## Claim C3 — status-based retry decision -/

/-- Claim C3, counterexample: with `retry_on_status = {500}` (429 not a
member) a 429 response is still retried — the pipeline's dedicated 429
branch (client.py:230) never consults `retry_on_status` — refuting both the
claimed iff and the sentence "when 429 is not a member of retry_on_status, a
429 response is not retried". -/
theorem C3_counterexample :
    (429 ∈ ({ jitter := false, retry_on_status := [500] } : RetryConfig).retry_on_status
      ↔ False) ∧
    (makeRequest
      { backoff := { jitter := false },
        retry_config := { jitter := false, retry_on_status := [500] } }
      { method := "POST" }
      (fun n => if n = 1 then .response { status_code := 429, retry_after := some 5 }
        else .response { status_code := 200 })
      (fun _ => 0) (fun _ => 0) {}).2.retry_count = 1 ∧
    (makeRequest
      { backoff := { jitter := false },
        retry_config := { jitter := false, retry_on_status := [500] } }
      { method := "POST" }
      (fun n => if n = 1 then .response { status_code := 429, retry_after := some 5 }
        else .response { status_code := 200 })
      (fun _ => 0) (fun _ => 0) {}).1 = .ok { status_code := 200 } := by
  exact ⟨by decide, by decide, by decide⟩

/-- Claim C3 (amended): with attempts remaining and the breaker allowing,
a response with status `s` is retried iff `s = 429` OR (`s ∈ retry_on_status`
AND the method is idempotent) — the 429 branch does not consult
`retry_on_status`; when `s ≠ 429`, `s ∈ retry_on_status` and the method is
not idempotent, the pipeline records two breaker failures (`ServerError`
falls into the generic `except Exception` handler) and terminates with
`RequestError` wrapping `ServerError`, incrementing `failed_requests`; any
other status is treated as a success: the breaker records a success and the
response is returned. -/
theorem C3_retry_decision :
    (∀ (c : ClientModel) (req : RequestArgs) (transport : ℕ → TransportOutcome)
       (times jitters : ℕ → ℚ) (attempt : ℕ) (s : PState) (r : HttpResponse),
      transport (attempt + 1) = .response r →
      (allow_request c.breaker_cfg (times (attempt + 1)) s.breaker).1 = true →
      attempt + 1 < c.retry_config.max_attempts →
      ((∃ s₁, attemptStep c req transport times jitters (attempt + 1) s =
          .continueLoop s₁) ↔
        (r.status_code = 429 ∨
          (should_retry_on_status r.status_code c.retry_config = true ∧
           is_idempotent_method req.method c.retry_config = true)))) ∧
    (∀ (c : ClientModel) (req : RequestArgs) (transport : ℕ → TransportOutcome)
       (times jitters : ℕ → ℚ) (attempt : ℕ) (s : PState) (r : HttpResponse),
      transport (attempt + 1) = .response r →
      (allow_request c.breaker_cfg (times (attempt + 1)) s.breaker).1 = true →
      ¬ r.status_code = 429 →
      should_retry_on_status r.status_code c.retry_config = true →
      is_idempotent_method req.method c.retry_config = false →
      ∃ s₁, attemptStep c req transport times jitters (attempt + 1) s =
          .done (.err (.requestError (some (.serverError r.status_code)))) s₁ ∧
        s₁.breaker = record_failure c.breaker_cfg (times (attempt + 1)) none
          (record_failure c.breaker_cfg (times (attempt + 1)) none
            (allow_request c.breaker_cfg (times (attempt + 1)) s.breaker).2) ∧
        s₁.stats.failed_requests = s.stats.failed_requests + 1) ∧
    (∀ (c : ClientModel) (req : RequestArgs) (transport : ℕ → TransportOutcome)
       (times jitters : ℕ → ℚ) (attempt : ℕ) (s : PState) (r : HttpResponse),
      transport (attempt + 1) = .response r →
      (allow_request c.breaker_cfg (times (attempt + 1)) s.breaker).1 = true →
      ¬ r.status_code = 429 →
      should_retry_on_status r.status_code c.retry_config = false →
      ∃ s₁, attemptStep c req transport times jitters (attempt + 1) s =
          .done (.ok r) s₁ ∧
        s₁.breaker = record_success c.breaker_cfg
          (allow_request c.breaker_cfg (times (attempt + 1)) s.breaker).2 ∧
        s₁.stats.successful_requests = s.stats.successful_requests + 1 ∧
        s₁.stats.failed_requests = s.stats.failed_requests) := by
  refine ⟨?_, ?_, ?_⟩
  · intro c req transport times jitters attempt s r htr hallow hlt
    have hge : ¬ (attempt + 1 ≥ c.retry_config.max_attempts) := by omega
    by_cases h429 : r.status_code = 429
    · simp [attemptStep, htr, h429, hallow, hge]
    · by_cases hsr : should_retry_on_status r.status_code c.retry_config = true
      · by_cases hid : is_idempotent_method req.method c.retry_config = true
        · simp [attemptStep, htr, h429, hallow, hge, hsr, hid]
        · simp [attemptStep, htr, h429, hallow, hsr, hid]
      · simp [attemptStep, htr, h429, hallow, hsr]
  · intro c req transport times jitters attempt s r htr hallow h429 hsr hid
    simp only [attemptStep, htr, hallow, hsr, hid, h429, not_true, Bool.not_eq_true,
      if_false, ite_false, ite_true, reduceIte, Bool.false_eq_true]
    exact ⟨_, rfl, rfl, rfl⟩
  · intro c req transport times jitters attempt s r htr hallow h429 hsr
    simp only [attemptStep, htr, hallow, hsr, h429, not_true, Bool.not_eq_true,
      if_false, ite_false, ite_true, reduceIte, Bool.false_eq_true]
    refine ⟨_, rfl, ?_, ?_, ?_⟩ <;>
      cases hc : s.cache <;> simp only [hc] <;> (try split_ifs) <;> rfl

/-- Claim C3, witness: the retry-decision iff evaluated at a 500 response to
an idempotent GET under the default configuration (both sides hold). -/
theorem C3_retry_decision_witness :
    (∃ s₁, attemptStep { backoff := { jitter := false }, retry_config := { jitter := false } }
        { method := "GET" }
        (fun _ => .response { status_code := 500 }) (fun _ => 0) (fun _ => 0) 1 {} =
        .continueLoop s₁) ↔
      (({ status_code := 500 } : HttpResponse).status_code = 429 ∨
        (should_retry_on_status 500 { jitter := false } = true ∧
         is_idempotent_method "GET" { jitter := false } = true)) :=
  C3_retry_decision.1 { backoff := { jitter := false }, retry_config := { jitter := false } }
    { method := "GET" } (fun _ => .response { status_code := 500 })
    (fun _ => 0) (fun _ => 0) 0 {} { status_code := 500 }
    rfl (by decide) (by decide)

/-! ## Claim C4 — exhausted 429s (code bug) -/

/-- Claim C4, evaluation at the failing input: with the transport always
returning 429 and `max_attempts = 3`, the `RateLimitExceeded` raised at
exhaustion (client.py:253) is caught by the pipeline's own generic
`except Exception` (client.py:382), which records a second breaker failure,
increments `failed_requests`, and re-raises `RequestError` wrapping the
`RateLimitExceeded(attempts=3)`.  `circuit_breaker_trips` is indeed
unchanged and intermediate 429s record no breaker failure — but the call
raises `RequestError`, not `RateLimitExceeded`, and two breaker failures
are recorded instead of one, contradicting the claim, the method's
docstring ("Raises: RateLimitExceeded") and the repository's required test
`test_stops_after_max_retries`. -/
theorem C4_exhausted_429_eval :
    (makeRequest { backoff := { jitter := false }, retry_config := { jitter := false } }
      { method := "GET" } (fun _ => .response { status_code := 429 })
      (fun _ => 0) (fun _ => 0) {}).1 =
        .err (.requestError (some (.rateLimitExceeded 3 none))) ∧
    (makeRequest { backoff := { jitter := false }, retry_config := { jitter := false } }
      { method := "GET" } (fun _ => .response { status_code := 429 })
      (fun _ => 0) (fun _ => 0) {}).2.breaker.metrics.failed_calls = 2 ∧
    (makeRequest { backoff := { jitter := false }, retry_config := { jitter := false } }
      { method := "GET" } (fun _ => .response { status_code := 429 })
      (fun _ => 0) (fun _ => 0) {}).2.stats.circuit_breaker_trips = 0 ∧
    (makeRequest { backoff := { jitter := false }, retry_config := { jitter := false } }
      { method := "GET" } (fun _ => .response { status_code := 429 })
      (fun _ => 0) (fun _ => 0) {}).2.stats.total_requests = 3 ∧
    (makeRequest { backoff := { jitter := false }, retry_config := { jitter := false } }
      { method := "GET" } (fun _ => .response { status_code := 429 })
      (fun _ => 0) (fun _ => 0) {}).2.sleeps = [1, 2] := by
  exact ⟨by decide, by decide, by decide, by decide, by decide⟩

/-! ## Claim C10 — failed_requests accounting (code bug) -/

/-- Claim C10, evaluation: (i) each transport-exception attempt increments
`failed_requests` exactly once, including retried ones — two timeouts
followed by a 200 leave `failed_requests = 2` with a successful result;
(ii) at the failing input — a POST receiving 500, a non-idempotent
retryable status — the `ServerError` raised at client.py:268 is caught by
the generic `except Exception` handler, so `failed_requests` is incremented
to 1 (the claim says status-based failures never increment it) and a second
breaker failure is recorded, the call ending in `RequestError` wrapping
`ServerError`. -/
theorem C10_failed_requests_eval :
    (makeRequest { backoff := { jitter := false }, retry_config := { jitter := false } }
      { method := "GET" }
      (fun n => if n ≤ 2 then .timeoutExc else .response { status_code := 200 })
      (fun _ => 0) (fun _ => 0) {}).2.stats.failed_requests = 2 ∧
    (makeRequest { backoff := { jitter := false }, retry_config := { jitter := false } }
      { method := "GET" }
      (fun n => if n ≤ 2 then .timeoutExc else .response { status_code := 200 })
      (fun _ => 0) (fun _ => 0) {}).1 = .ok { status_code := 200 } ∧
    (makeRequest { backoff := { jitter := false }, retry_config := { jitter := false } }
      { method := "POST" } (fun _ => .response { status_code := 500 })
      (fun _ => 0) (fun _ => 0) {}).1 =
        .err (.requestError (some (.serverError 500))) ∧
    (makeRequest { backoff := { jitter := false }, retry_config := { jitter := false } }
      { method := "POST" } (fun _ => .response { status_code := 500 })
      (fun _ => 0) (fun _ => 0) {}).2.stats.failed_requests = 1 ∧
    (makeRequest { backoff := { jitter := false }, retry_config := { jitter := false } }
      { method := "POST" } (fun _ => .response { status_code := 500 })
      (fun _ => 0) (fun _ => 0) {}).2.breaker.metrics.failed_calls = 2 := by
  exact ⟨by decide, by decide, by decide, by decide, by decide⟩

/-! ## Claim C8 — cache read-through and write-back -/

/-- Claim C8: with a cache installed, `use_cache` true and a GET method:
(hit) when the pre-loop lookup returns a value `v`, the pipeline returns
`v` at once with only `cache_hits` incremented (and the cache advanced by
the lookup's own bookkeeping) — no transport attempt is made and
`total_requests`, the breaker and every other counter are untouched, since
the resulting state is literally the input state except for those two
fields and the result does not depend on the transport at all;
(miss) when the lookup returns nothing, the pipeline increments
`cache_misses` and runs the ordinary attempt loop from the updated state;
(store) an iteration that ends the loop successfully with response `r`
writes `r` back into the cache if and only if `200 ≤ r.status_code < 300`;
(frame) an iteration that continues the loop or ends it with an error never
changes the cache. -/
theorem C8_cache_pipeline
    (c : ClientModel) (req : RequestArgs)
    (transport : ℕ → TransportOutcome) (times jitters : ℕ → ℚ)
    (s : PState) (cc : InMemoryCache HttpResponse)
    (hcache : s.cache = some cc)
    (huse : req.use_cache = true)
    (hget : strToUpper req.method = "GET") :
    (∀ v, (InMemoryCache.get (times 0)
        (generate_cache_key req.method req.url req.params req.headers none) cc).1
          = some v →
      makeRequest c req transport times jitters s =
        (.ok v, { s with
          cache := some (InMemoryCache.get (times 0)
            (generate_cache_key req.method req.url req.params req.headers none) cc).2
          stats.cache_hits := s.stats.cache_hits + 1 })) ∧
    ((InMemoryCache.get (times 0)
        (generate_cache_key req.method req.url req.params req.headers none) cc).1
          = none →
      makeRequest c req transport times jitters s =
        runAux c req transport times jitters c.retry_config.max_attempts 0
          { s with
            cache := some (InMemoryCache.get (times 0)
              (generate_cache_key req.method req.url req.params req.headers none) cc).2
            stats.cache_misses := s.stats.cache_misses + 1
            retry_count := 0
            retry_delays := [] }) ∧
    (∀ attempt s' r, transport attempt = .response r →
      r.status_code ≠ 429 →
      should_retry_on_status r.status_code c.retry_config = false →
      (allow_request c.breaker_cfg (times attempt) s'.breaker).1 = true →
      ∃ s₂, attemptStep c req transport times jitters attempt s' = .done (.ok r) s₂ ∧
        s₂.cache = (match s'.cache with
          | some cc' =>
              if 200 ≤ r.status_code ∧ r.status_code < 300 then
                some (InMemoryCache.set (times attempt)
                  (generate_cache_key req.method req.url req.params req.headers none)
                  r none none cc')
              else some cc'
          | none => none)) ∧
    (∀ attempt s' s₂,
      attemptStep c req transport times jitters attempt s' = .continueLoop s₂ →
      s₂.cache = s'.cache) ∧
    (∀ attempt s' s₂ e,
      attemptStep c req transport times jitters attempt s' = .done (.err e) s₂ →
      s₂.cache = s'.cache) := by
  refine ⟨?_, ?_, ?_, ?_, ?_⟩
  · intro v hv
    simp only [makeRequest, hcache, huse, hget]
    rw [if_pos (by constructor <;> trivial), hv]
  · intro hv
    simp only [makeRequest, hcache, huse, hget]
    rw [if_pos (by constructor <;> trivial), hv]
  · intro attempt s' r htr h429 hretry hallow
    simp only [attemptStep, htr, hretry, hallow, if_neg h429, not_true,
      Bool.false_eq_true, if_false, ite_false, ite_true, not_false_iff, if_true]
    refine ⟨_, rfl, ?_⟩
    cases hc : s'.cache with
    | none => simp only [hc]
    | some cc' =>
        simp only [hc]
        by_cases h2xx : 200 ≤ r.status_code ∧ r.status_code < 300
        · rw [if_pos ⟨huse, hget, h2xx.1, h2xx.2⟩, if_pos h2xx]
        · rw [if_neg (show ¬ (req.use_cache ∧ strToUpper req.method = "GET" ∧
              200 ≤ r.status_code ∧ r.status_code < 300) by
                intro hx; exact h2xx ⟨hx.2.2.1, hx.2.2.2⟩),
            if_neg h2xx]
  · intro attempt s' s₂ h
    simp only [attemptStep] at h
    (repeat' split at h) <;> (cases h <;> rfl)
  · intro attempt s' s₂ e h
    simp only [attemptStep] at h
    (repeat' split at h) <;> (cases h <;> rfl)

/-- Witness for C8: a concrete client whose cache holds a never-expiring 200
response under the pipeline's own key for a parameterless GET; the pipeline
returns it at once with `cache_hits = 1`, against a transport that would
fail every attempt. -/
theorem C8_cache_pipeline_witness :
    makeRequest {} { method := "GET" } (fun _ => .otherExc) (fun _ => 0) (fun _ => 0)
      { cache := some { entries := [(generate_cache_key "GET" "" none [] none,
          { value := { status_code := 200 }, created_at := 0, ttl := 0 })] } } =
      (.ok { status_code := 200 },
       { cache := some (InMemoryCache.get 0 (generate_cache_key "GET" "" none [] none)
           { entries := [(generate_cache_key "GET" "" none [] none,
             { value := { status_code := 200 }, created_at := 0, ttl := 0 })] }).2
         stats := { cache_hits := 1 } }) :=
  (C8_cache_pipeline {} { method := "GET" } (fun _ => .otherExc) (fun _ => 0) (fun _ => 0)
      { cache := some { entries := [(generate_cache_key "GET" "" none [] none,
          { value := { status_code := 200 }, created_at := 0, ttl := 0 })] } }
      { entries := [(generate_cache_key "GET" "" none [] none,
          { value := { status_code := 200 }, created_at := 0, ttl := 0 })] }
      rfl rfl rfl).1 { status_code := 200 } (by decide)

end RateWise
